import Mathlib

/-!
Verification development for the output-channel manager of ESPixelStick
(`src/output/OutputMgr.cpp`).  The C++ code is shallowly embedded: the
manager state is a Lean structure, the configuration document is a nested
association-list structure, and each manager method becomes a pure Lean
function returning the new state together with a trace of observable
events (driver destruction/construction, log lines, save attempts).

Concrete protocol drivers are outside the scope of the source file; they
are represented by the opaque environment `Env` (per-driver settings
payloads of an arbitrary type `α`, a channel-need function, a settings
acceptance function, persistence results).
-/

set_option maxHeartbeats 1000000

/-- Output channel types.  The enumeration itself lives in
`OutputMgr.hpp`, which is not part of the excerpt; the ordinal order is
modelled from the spec's "supported type range" and the order of
`OutputTypeXlateMap` in `OutputMgr.cpp`, which is indexed by
`e_OutputType` up to `OutputType_End`. -/
inductive e_OutputType : Type where
  | OutputType_WS2811
  | OutputType_GECE
  | OutputType_Serial
  | OutputType_Renard
  | OutputType_DMX
  | OutputType_Relay
  | OutputType_Disabled
deriving DecidableEq, Repr

/-- Numeric ordinal of an output type (the integer value stored in the
configuration document by `CreateJsonConfig`). -/
def e_OutputType.toNat : e_OutputType → Nat
  | .OutputType_WS2811 => 0
  | .OutputType_GECE => 1
  | .OutputType_Serial => 2
  | .OutputType_Renard => 3
  | .OutputType_DMX => 4
  | .OutputType_Relay => 5
  | .OutputType_Disabled => 6

/-- The C++ cast `e_OutputType(n)` for an ordinal `n`; callers in
`OutputMgr.cpp` only apply it after checking
`OutputType_Start ≤ n < OutputType_End`. -/
def e_OutputType.fromNat : Nat → e_OutputType
  | 0 => .OutputType_WS2811
  | 1 => .OutputType_GECE
  | 2 => .OutputType_Serial
  | 3 => .OutputType_Renard
  | 4 => .OutputType_DMX
  | 5 => .OutputType_Relay
  | _ => .OutputType_Disabled

/-- First valid output-type ordinal (`OutputType_Start`). -/
def OutputType_Start : Nat := 0

/-- One-past-the-last valid output-type ordinal (`OutputType_End`). -/
def OutputType_End : Nat := 7

/-- One row of `OutputChannelIdToGpioAndPort`: the static hardware
descriptor of one output channel slot (data pin, UART id; `-1` means the
slot has no serial engine). -/
structure OutputChannelIdToGpioAndPortEntry where
  dataPin : Int
  UartId : Int
deriving DecidableEq, Repr

/-- The static slot table from `OutputMgr.cpp` (ESP32 build: the middle
entry is guarded by `ARDUINO_ARCH_ESP32` in the source). -/
def OutputChannelIdToGpioAndPort : List OutputChannelIdToGpioAndPortEntry :=
  [⟨2, 1⟩, ⟨13, 2⟩, ⟨10, -1⟩]

/-- First output channel ordinal (`OutputChannelId_Start`, from
`OutputMgr.hpp`; modelled from the spec's canonical slot range). -/
def OutputChannelId_Start : Nat := 0

/-- One-past-the-last output channel ordinal (`OutputChannelId_End`,
from `OutputMgr.hpp`): one slot per row of the slot table. -/
def OutputChannelId_End : Nat := 3

/-- Data pin of a slot, as read from the slot table. -/
def dataPinOf (ChannelIndex : Nat) : Int :=
  ((OutputChannelIdToGpioAndPort.get? ChannelIndex).getD ⟨0, -1⟩).dataPin

/-- UART id of a slot, as read from the slot table. -/
def uartOf (ChannelIndex : Nat) : Int :=
  ((OutputChannelIdToGpioAndPort.get? ChannelIndex).getD ⟨0, -1⟩).UartId

/-- Does the slot's static descriptor satisfy the requested type's
hardware requirement?  The serial-protocol family (`DMX`, `GECE`,
`Serial`, `Renard`, `WS2811`) needs a UART (`UartId ≠ -1`); `Relay`
needs the absence of a UART; `Disabled` is always possible.  This is
the feasibility predicate used by the claims. -/
def typeFeasible (t : e_OutputType) (UartId : Int) : Bool :=
  match t with
  | .OutputType_Disabled => true
  | .OutputType_Relay => UartId = -1
  | _ => ¬ (UartId = -1)

/-- The effective type constructed by the `switch` in
`InstantiateNewOutputChannel`: the requested type when feasible,
`Disabled` otherwise. -/
def resolveOutputType (t : e_OutputType) (UartId : Int) : e_OutputType :=
  if typeFeasible t UartId then t else .OutputType_Disabled

/-- A live driver instance, as visible at the manager level: the
constructor arguments of every concrete `c_Output*` class in
`InstantiateNewOutputChannel` (channel id, data pin, UART id, output
type).  Per-protocol internals are outside the excerpt. -/
structure c_OutputCommon where
  OutputChannelId : Nat
  DataPin : Int
  UartId : Int
  OutputTypeVal : e_OutputType
deriving DecidableEq, Repr

/-- Observable events emitted by the manager's methods. -/
inductive Event : Type where
  | destroy (slot : Nat) (t : e_OutputType)
  | construct (slot : Nat) (t : e_OutputType)
  | logMsg (msg : String)
  | saveAttempt (ok : Bool)
  | setBufferInfo (usedSize : Nat)
deriving DecidableEq, Repr

/-- Association-list lookup for document sections keyed by ordinals
(the document's decimal-string keys are modelled by the ordinals
themselves). -/
def alookup {β : Type} : List (Nat × β) → Nat → Option β
  | [], _ => none
  | (k, v) :: rest, k' => if k' = k then some v else alookup rest k'

/-- Association-list write: replace the value at an existing key or
append a new key (ArduinoJson `obj[key] = v` / `createNestedObject`). -/
def aset {β : Type} : List (Nat × β) → Nat → β → List (Nat × β)
  | [], k, v => [(k, v)]
  | (k0, v0) :: rest, k, v =>
      if k = k0 then (k0, v) :: rest else (k0, v0) :: aset rest k v

/-- Per-channel record of the configuration document: the numeric
selected-type field (`OM_CHANNEL_TYPE_NAME`) and the per-type settings
sub-records keyed by type ordinal.  Settings payloads are the opaque
type `α`. -/
structure ChannelRecord (α : Type) where
  channel_type : Option Nat
  typeRecords : List (Nat × α)
deriving DecidableEq, Repr

/-- The `OM_SECTION_NAME` object: an optional `OM_CHANNEL_SECTION_NAME`
object keyed by slot ordinal. -/
structure OutputConfigSection (α : Type) where
  channels : Option (List (Nat × ChannelRecord α))
deriving DecidableEq, Repr

/-- A whole configuration document: an optional top-level
`OM_SECTION_NAME` ("output_config") object. -/
structure JsonRoot (α : Type) where
  output_config : Option (OutputConfigSection α)
deriving DecidableEq, Repr

/-- Opaque collaborators: the drivers' behaviour behind the capability
contract and the persistence layer's results. -/
structure Env (α : Type) where
  emit : c_OutputCommon → Option α → α
  needOf : c_OutputCommon → Nat
  accept : c_OutputCommon → α → Bool
  saveOk : Bool
  loadResult : Option (JsonRoot α)
  bufferCapacity : Nat

/-- The manager's mutable state (`c_OutputMgr` data members). -/
structure c_OutputMgr (α : Type) where
  pOutputChannelDrivers : List (Option c_OutputCommon)
  ConfigData : JsonRoot α
  ConfigSaveNeeded : Bool
  HasBeenInitialized : Bool
  IsOutputPaused : Bool
  UsedBufferSize : Nat
  bufferWindows : List (Nat × Nat)
deriving DecidableEq, Repr

/-- `pOutputChannelDrivers[i]`. -/
def slotAt (drivers : List (Option c_OutputCommon)) (i : Nat) : Option c_OutputCommon :=
  (drivers.get? i).getD none

/-- The non-null drivers, in slot order (after initialization every slot
is non-null, so this is simply the driver of each slot). -/
def currentDrivers {α : Type} (s : c_OutputMgr α) : List c_OutputCommon :=
  s.pOutputChannelDrivers.filterMap id

/-- The constructor `switch` of `InstantiateNewOutputChannel`: build the
driver for the requested type, substituting a `c_OutputDisabled` (and
logging) when the slot's descriptor cannot support the type. -/
def constructDriver (ChannelIndex : Nat) (dataPin UartId : Int)
    (NewOutputChannelType : e_OutputType) : c_OutputCommon × List Event :=
  match NewOutputChannelType with
  | .OutputType_Disabled =>
      (⟨ChannelIndex, dataPin, UartId, .OutputType_Disabled⟩,
       [Event.construct ChannelIndex .OutputType_Disabled])
  | .OutputType_DMX =>
      if UartId = -1 then
        (⟨ChannelIndex, dataPin, UartId, .OutputType_Disabled⟩,
         [Event.logMsg "Cannot Start DMX", Event.construct ChannelIndex .OutputType_Disabled])
      else
        (⟨ChannelIndex, dataPin, UartId, .OutputType_DMX⟩,
         [Event.construct ChannelIndex .OutputType_DMX])
  | .OutputType_GECE =>
      if UartId = -1 then
        (⟨ChannelIndex, dataPin, UartId, .OutputType_Disabled⟩,
         [Event.logMsg "Cannot Start GECE", Event.construct ChannelIndex .OutputType_Disabled])
      else
        (⟨ChannelIndex, dataPin, UartId, .OutputType_GECE⟩,
         [Event.construct ChannelIndex .OutputType_GECE])
  | .OutputType_Serial =>
      if UartId = -1 then
        (⟨ChannelIndex, dataPin, UartId, .OutputType_Disabled⟩,
         [Event.logMsg "Cannot Start Generic Serial", Event.construct ChannelIndex .OutputType_Disabled])
      else
        (⟨ChannelIndex, dataPin, UartId, .OutputType_Serial⟩,
         [Event.construct ChannelIndex .OutputType_Serial])
  | .OutputType_Relay =>
      if ¬ (UartId = -1) then
        (⟨ChannelIndex, dataPin, UartId, .OutputType_Disabled⟩,
         [Event.logMsg "Cannot Start RELAY", Event.construct ChannelIndex .OutputType_Disabled])
      else
        (⟨ChannelIndex, dataPin, UartId, .OutputType_Relay⟩,
         [Event.construct ChannelIndex .OutputType_Relay])
  | .OutputType_Renard =>
      if UartId = -1 then
        (⟨ChannelIndex, dataPin, UartId, .OutputType_Disabled⟩,
         [Event.logMsg "Cannot Start Renard", Event.construct ChannelIndex .OutputType_Disabled])
      else
        (⟨ChannelIndex, dataPin, UartId, .OutputType_Renard⟩,
         [Event.construct ChannelIndex .OutputType_Renard])
  | .OutputType_WS2811 =>
      if UartId = -1 then
        (⟨ChannelIndex, dataPin, UartId, .OutputType_Disabled⟩,
         [Event.logMsg "Cannot Start WS2811", Event.construct ChannelIndex .OutputType_Disabled])
      else
        (⟨ChannelIndex, dataPin, UartId, .OutputType_WS2811⟩,
         [Event.construct ChannelIndex .OutputType_WS2811])

/-- Driver-array effect of `InstantiateNewOutputChannel`: no-op when the
occupying driver already reports the requested type, otherwise destroy
the occupant (when present) and construct the resolved driver. -/
def instantiateNewOutputChannelDrivers (ChannelIndex : Nat)
    (NewOutputChannelType : e_OutputType)
    (drivers : List (Option c_OutputCommon)) :
    List (Option c_OutputCommon) × List Event :=
  match slotAt drivers ChannelIndex with
  | some cur =>
      if cur.OutputTypeVal = NewOutputChannelType then
        (drivers, [])
      else
        let r := constructDriver ChannelIndex (dataPinOf ChannelIndex) (uartOf ChannelIndex)
                   NewOutputChannelType
        (drivers.set ChannelIndex (some r.1),
         Event.destroy ChannelIndex cur.OutputTypeVal :: r.2)
  | none =>
      let r := constructDriver ChannelIndex (dataPinOf ChannelIndex) (uartOf ChannelIndex)
                 NewOutputChannelType
      (drivers.set ChannelIndex (some r.1), r.2)

/-- `c_OutputMgr::InstantiateNewOutputChannel` (the spec's `ensure`). -/
def InstantiateNewOutputChannel {α : Type} (s : c_OutputMgr α) (ChannelIndex : Nat)
    (NewOutputChannelType : e_OutputType) : c_OutputMgr α × List Event :=
  let r := instantiateNewOutputChannelDrivers ChannelIndex NewOutputChannelType
             s.pOutputChannelDrivers
  ({ s with pOutputChannelDrivers := r.1 }, r.2)

/-- One channel iteration of `c_OutputMgr::CreateJsonConfig`: fetch or
create the channel record, store the selected type ordinal, and write
the active type's settings sub-record (leaving sibling sub-records in
place). -/
def createJsonConfigStep {α : Type} (env : Env α)
    (chs : List (Nat × ChannelRecord α)) (d : c_OutputCommon) :
    List (Nat × ChannelRecord α) :=
  let r0 := (alookup chs d.OutputChannelId).getD ⟨none, []⟩
  let tId := d.OutputTypeVal.toNat
  let r1 : ChannelRecord α :=
    ⟨some tId, aset r0.typeRecords tId (env.emit d (alookup r0.typeRecords tId))⟩
  aset chs d.OutputChannelId r1

/-- The channels object produced by `CreateJsonConfig`. -/
def createJsonConfigChannels {α : Type} (env : Env α)
    (drivers : List c_OutputCommon) (chs : List (Nat × ChannelRecord α)) :
    List (Nat × ChannelRecord α) :=
  drivers.foldl (createJsonConfigStep env) chs

/-- `c_OutputMgr::CreateJsonConfig` (the spec's `encode`): merge the
current drivers' state into an existing `OM_SECTION_NAME` object. -/
def CreateJsonConfig {α : Type} (env : Env α) (drivers : List c_OutputCommon)
    (jsonConfig : OutputConfigSection α) : OutputConfigSection α :=
  ⟨some (createJsonConfigChannels env drivers (jsonConfig.channels.getD []))⟩

/-- `c_OutputMgr::SaveConfig`: one save attempt against the persistence
collaborator; success or failure only produces a log line. -/
def SaveConfig {α : Type} (env : Env α) (s : c_OutputMgr α) :
    c_OutputMgr α × List Event :=
  (s,
   [Event.saveAttempt env.saveOk,
    Event.logMsg
      (if env.saveOk then "Saved Output Manager Config File"
       else "Error Saving Output Manager Config File")])

/-- The inner per-channel loop of `CreateNewConfig`: instantiate the
given type on every channel (`ChannelIndex++` over the driver array). -/
def instantiateAllChannels {α : Type} (s : c_OutputMgr α) (t : e_OutputType) :
    c_OutputMgr α × List Event :=
  (List.range OutputChannelId_End).foldl
    (fun acc i =>
      let r := InstantiateNewOutputChannel acc.1 i t
      (r.1, acc.2 ++ r.2))
    (s, [])

/-- The final loop of `CreateNewConfig`.  In the source the loop body
reads `e_OutputChannelIds (ChannelIndex)` but never increments
`ChannelIndex`, so every iteration addresses channel 0. -/
def disableChannelZeroLoop {α : Type} (s : c_OutputMgr α) :
    c_OutputMgr α × List Event :=
  (List.range OutputChannelId_End).foldl
    (fun acc _ =>
      let r := InstantiateNewOutputChannel acc.1 0 e_OutputType.OutputType_Disabled
      (r.1, acc.2 ++ r.2))
    (s, [])

/-- One output-type iteration of `CreateNewConfig`: instantiate the type
on every channel, then collect the configuration. -/
def createNewConfigTypeStep {α : Type} (env : Env α)
    (acc : c_OutputMgr α × OutputConfigSection α × List Event) (outputTypeId : Nat) :
    c_OutputMgr α × OutputConfigSection α × List Event :=
  let r := instantiateAllChannels acc.1 (e_OutputType.fromNat outputTypeId)
  let cfg := CreateJsonConfig env (currentDrivers r.1) acc.2.1
  (r.1, cfg, acc.2.2 ++ r.2)

/-- `c_OutputMgr::CreateNewConfig` (the spec's full-matrix default
generation): cycle every channel through every supported type,
collecting the configuration after each pass, finish with the
(channel-0-only, see `disableChannelZeroLoop`) disable pass and a final
collection, then store and save the new document. -/
def CreateNewConfig {α : Type} (env : Env α) (s : c_OutputMgr α) :
    c_OutputMgr α × List Event :=
  let start : c_OutputMgr α × OutputConfigSection α × List Event := (s, ⟨none⟩, [])
  let r := (List.range OutputType_End).foldl (createNewConfigTypeStep env) start
  let r2 := disableChannelZeroLoop r.1
  let cfg3 := CreateJsonConfig env (currentDrivers r2.1) r.2.1
  let s4 : c_OutputMgr α :=
    { r2.1 with ConfigData := ⟨some cfg3⟩, ConfigSaveNeeded := false }
  let r5 := SaveConfig env s4
  (r5.1, r.2.2 ++ r2.2 ++ r5.2)

/-- The per-slot loop of `ProcessJsonConfig` (the spec's decode), over
the list of remaining channel ordinals.  A channel ordinal missing from
the channels object stops the loop (`break` in the source); a missing or
out-of-range type field and a missing per-type settings record disable
the channel and continue (`continue` in the source); otherwise the
requested type is instantiated and the settings record is handed to the
driver, OR-ing its acceptance into the running result. -/
def processChannelLoop {α : Type} (env : Env α)
    (OutputChannelArray : List (Nat × ChannelRecord α)) :
    List Nat → c_OutputMgr α → Bool → c_OutputMgr α × Bool × List Event
  | [], s, Response => (s, Response, [])
  | ChannelIndex :: rest, s, Response =>
    match alookup OutputChannelArray ChannelIndex with
    | none =>
        (s, Response,
         [Event.logMsg ("No Output Settings Found for Channel " ++ toString ChannelIndex)])
    | some OutputChannelConfig =>
      let ChannelType := OutputChannelConfig.channel_type.getD OutputType_End
      if ChannelType < OutputType_Start ∨ OutputType_End ≤ ChannelType then
        let r1 := InstantiateNewOutputChannel s ChannelIndex .OutputType_Disabled
        let r2 := processChannelLoop env OutputChannelArray rest r1.1 Response
        (r2.1, r2.2.1,
         Event.logMsg ("Invalid Channel Type in config for channel " ++ toString ChannelIndex)
           :: (r1.2 ++ r2.2.2))
      else
        match alookup OutputChannelConfig.typeRecords ChannelType with
        | none =>
          let r1 := InstantiateNewOutputChannel s ChannelIndex .OutputType_Disabled
          let r2 := processChannelLoop env OutputChannelArray rest r1.1 Response
          (r2.1, r2.2.1,
           Event.logMsg ("No Output Settings Found for Channel " ++ toString ChannelIndex)
             :: (r1.2 ++ r2.2.2))
        | some OutputChannelDriverConfig =>
          let r1 := InstantiateNewOutputChannel s ChannelIndex (e_OutputType.fromNat ChannelType)
          let accepted :=
            match slotAt r1.1.pOutputChannelDrivers ChannelIndex with
            | some d => env.accept d OutputChannelDriverConfig
            | none => false
          let r2 := processChannelLoop env OutputChannelArray rest r1.1 (Response || accepted)
          (r2.1, r2.2.1, r1.2 ++ r2.2.2)

/-- The loop body of `UpdateDisplayBufferReferences`, walking the
per-slot channel needs with a running buffer offset: grants each slot
`min(need, capacity - offset)`, logging when the demand exceeds the
remaining capacity.  Returns the windows `(offset, size)`, the final
offset (used size) and the emitted events. -/
def UpdateDisplayBufferReferencesLoop (capacity : Nat) :
    List Nat → Nat → List (Nat × Nat) × Nat × List Event
  | [], OutputBufferOffset => ([], OutputBufferOffset, [])
  | ChannelsNeeded :: rest, OutputBufferOffset =>
    let AvailableChannels := capacity - OutputBufferOffset
    let ChannelsToAllocate := min ChannelsNeeded AvailableChannels
    let ev : List Event :=
      if AvailableChannels < ChannelsNeeded then
        [Event.logMsg ("Too many output channels have been defined: " ++ toString OutputBufferOffset)]
      else []
    let r := UpdateDisplayBufferReferencesLoop capacity rest (OutputBufferOffset + ChannelsToAllocate)
    ((OutputBufferOffset, ChannelsToAllocate) :: r.1, r.2.1, ev ++ r.2.2)

/-- `c_OutputMgr::UpdateDisplayBufferReferences` (the spec's
repartition): rebuild the per-slot buffer windows from each driver's
declared channel need and notify the input side of the used size. -/
def UpdateDisplayBufferReferences {α : Type} (env : Env α) (s : c_OutputMgr α) :
    c_OutputMgr α × List Event :=
  let needs := (currentDrivers s).map env.needOf
  let r := UpdateDisplayBufferReferencesLoop env.bufferCapacity needs 0
  ({ s with bufferWindows := r.1, UsedBufferSize := r.2.1 },
   r.2.2 ++ [Event.setBufferInfo r.2.1])

/-- `c_OutputMgr::ProcessJsonConfig`: record the incoming document as
the running config, walk the channel section (when present), declare
overall success whenever both sections were present (the accumulated
per-driver acceptance result is overwritten by the source's final
`Response = true`), regenerate a default document when the sections were
missing, and always finish with a repartition. -/
def ProcessJsonConfig {α : Type} (env : Env α) (s : c_OutputMgr α)
    (jsonConfig : JsonRoot α) : c_OutputMgr α × Bool × List Event :=
  let s0 : c_OutputMgr α := { s with ConfigData := jsonConfig }
  let r1 : c_OutputMgr α × Bool × List Event :=
    match jsonConfig.output_config with
    | none =>
        (s0, false, [Event.logMsg "No Output Interface Settings Found. Using Defaults"])
    | some OutputChannelMgrData =>
      match OutputChannelMgrData.channels with
      | none =>
          (s0, false, [Event.logMsg "No Output Channel Settings Found. Using Defaults"])
      | some OutputChannelArray =>
        let r := processChannelLoop env OutputChannelArray
                   (List.range OutputChannelId_End) s0 false
        (r.1, true, r.2.2)
  let r2 : c_OutputMgr α × List Event :=
    if r1.2.1 = false then CreateNewConfig env r1.1 else (r1.1, [])
  let r3 := UpdateDisplayBufferReferences env r2.1
  (r3.1, r1.2.1, r1.2.2 ++ r2.2 ++ r3.2)

/-- `c_OutputMgr::LoadConfig`: feed the stored document (when the
persistence collaborator can produce one) through `ProcessJsonConfig`;
on load failure, log and regenerate a complete default document. -/
def LoadConfig {α : Type} (env : Env α) (s : c_OutputMgr α) :
    c_OutputMgr α × List Event :=
  match env.loadResult with
  | some doc =>
      let r := ProcessJsonConfig env s doc
      (r.1, r.2.2)
  | none =>
      let r := CreateNewConfig env s
      (r.1, Event.logMsg "Error loading Output Manager Config File" :: r.2)

/-- `c_OutputMgr::SetConfig`: process an incoming document when it
carries the output-manager section, then schedule a deferred save by
raising the dirty flag. -/
def SetConfig {α : Type} (env : Env α) (s : c_OutputMgr α)
    (jsonConfig : JsonRoot α) : c_OutputMgr α × Bool × List Event :=
  match jsonConfig.output_config with
  | some _ =>
      let r := ProcessJsonConfig env s jsonConfig
      ({ r.1 with ConfigSaveNeeded := true }, r.2.1, r.2.2)
  | none =>
      (s, false, [Event.logMsg "No Output Manager settings found"])

/-- `c_OutputMgr::Render`: consume the dirty flag (saving once when it
was set), then delegate one frame to every driver (the wire-level output
is outside the managed state). -/
def Render {α : Type} (env : Env α) (s : c_OutputMgr α) :
    c_OutputMgr α × List Event :=
  if s.ConfigSaveNeeded then
    let s1 : c_OutputMgr α := { s with ConfigSaveNeeded := false }
    let r := SaveConfig env s1
    (r.1, r.2)
  else (s, [])

/-- `c_OutputMgr::Begin`: guarded by `HasBeenInitialized`; the first
call fills every slot with a `Disabled` driver and loads the stored
configuration, later calls return immediately. -/
def Begin {α : Type} (env : Env α) (s : c_OutputMgr α) :
    c_OutputMgr α × List Event :=
  if s.HasBeenInitialized then (s, [])
  else
    let s0 : c_OutputMgr α := { s with HasBeenInitialized := true }
    let r1 := instantiateAllChannels s0 .OutputType_Disabled
    let r2 := LoadConfig env r1.1
    (r2.1, r1.2 ++ r2.2)

/-- The channel record stored for a slot in an `OM_SECTION_NAME`
object. -/
def getChannelRecord {α : Type} (cfg : OutputConfigSection α) (slot : Nat) :
    Option (ChannelRecord α) :=
  match cfg.channels with
  | none => none
  | some chs => alookup chs slot

/-- The settings sub-record stored for a (slot, type ordinal) pair. -/
def getTypeRecord {α : Type} (cfg : OutputConfigSection α) (slot t : Nat) : Option α :=
  match getChannelRecord cfg slot with
  | none => none
  | some r => alookup r.typeRecords t

/-- Does a whole document contain a settings sub-record for the given
(slot, type ordinal) pair? -/
def hasTypeRecordRoot {α : Type} (root : JsonRoot α) (slot t : Nat) : Bool :=
  match root.output_config with
  | none => false
  | some cfg => (getTypeRecord cfg slot t).isSome

/-- Is an event a save attempt? -/
def isSaveAttempt : Event → Bool
  | .saveAttempt _ => true
  | _ => false

/-- Number of save attempts in a trace. -/
def saveAttemptCount (evs : List Event) : Nat := (evs.filter isSaveAttempt).length

/-- Is an event a driver construction? -/
def isConstructEvent : Event → Bool
  | .construct _ _ => true
  | _ => false

/-- Number of driver constructions in a trace. -/
def constructCount (evs : List Event) : Nat := (evs.filter isConstructEvent).length

/-- Is an event a driver destruction? -/
def isDestroyEvent : Event → Bool
  | .destroy _ _ => true
  | _ => false

/-- Number of driver destructions in a trace. -/
def destroyCount (evs : List Event) : Nat := (evs.filter isDestroyEvent).length

/-- Structural well-formedness of a manager state: one slot per row of
the static table, and every occupying driver carries its slot's ordinal
and a type its slot can support (every driver is constructed that way by
`InstantiateNewOutputChannel`). -/
def MgrWellFormed {α : Type} (s : c_OutputMgr α) : Prop :=
  s.pOutputChannelDrivers.length = OutputChannelId_End ∧
  ∀ i d, slotAt s.pOutputChannelDrivers i = some d →
    d.OutputChannelId = i ∧ typeFeasible d.OutputTypeVal (uartOf i) = true

/-- A freshly constructed disabled driver for slot `i`. -/
def disabledDriverAt (i : Nat) : c_OutputCommon :=
  ⟨i, dataPinOf i, uartOf i, .OutputType_Disabled⟩

/-- A concrete post-`Begin` manager state: all three slots disabled. -/
def mgr0 : c_OutputMgr Nat :=
  ⟨[some (disabledDriverAt 0), some (disabledDriverAt 1), some (disabledDriverAt 2)],
   ⟨none⟩, false, true, false, 0, []⟩

/-- A concrete opaque environment for witnesses and counterexamples. -/
def env0 : Env Nat :=
  ⟨fun _ _ => 0, fun _ => 0, fun _ _ => false, true, none, 0⟩

/-- Writing a key then reading it back. -/
theorem alookup_aset_self {β : Type} (l : List (Nat × β)) (k : Nat) (v : β) :
    alookup (aset l k v) k = some v := by
  induction l with
  | nil => simp [aset, alookup]
  | cons p rest ih =>
    obtain ⟨k0, v0⟩ := p
    by_cases h : k = k0
    · simp [aset, alookup, h]
    · simp [aset, alookup, h, ih]

/-- Writing a key leaves every other key unchanged. -/
theorem alookup_aset_other {β : Type} (l : List (Nat × β)) (k k' : Nat) (v : β)
    (h : k' ≠ k) : alookup (aset l k v) k' = alookup l k' := by
  induction l with
  | nil => simp [aset, alookup, h]
  | cons p rest ih =>
    obtain ⟨k0, v0⟩ := p
    by_cases h0 : k = k0
    · subst h0
      simp [aset, alookup, h]
    · by_cases h1 : k' = k0 <;> simp [aset, alookup, h0, h1, ih]

/-- Reading back an in-range written slot. -/
theorem slotAt_set_self (l : List (Option c_OutputCommon)) (i : Nat)
    (v : Option c_OutputCommon) (h : i < l.length) :
    slotAt (l.set i v) i = v := by
  induction l generalizing i with
  | nil => simp at h
  | cons a rest ih =>
    cases i with
    | zero => simp [slotAt]
    | succ j =>
      simp only [List.set]
      simpa [slotAt, List.get?] using ih j (by simpa using h)

/-- Writing one slot leaves the other slots unchanged. -/
theorem slotAt_set_other (l : List (Option c_OutputCommon)) (i j : Nat)
    (v : Option c_OutputCommon) (h : j ≠ i) :
    slotAt (l.set i v) j = slotAt l j := by
  induction l generalizing i j with
  | nil => simp [slotAt]
  | cons a rest ih =>
    cases i with
    | zero =>
      cases j with
      | zero => exact absurd rfl h
      | succ j' => simp [slotAt, List.set, List.get?]
    | succ i' =>
      cases j with
      | zero => simp [slotAt, List.set, List.get?]
      | succ j' =>
        simp only [List.set]
        simpa [slotAt, List.get?] using ih i' j' (fun hc => h (by simpa using hc))

/-- Writing a slot out of range is a no-op. -/
theorem set_oor (l : List (Option c_OutputCommon)) (i : Nat)
    (v : Option c_OutputCommon) (h : l.length ≤ i) : l.set i v = l := by
  induction l generalizing i with
  | nil => simp
  | cons a rest ih =>
    cases i with
    | zero => simp at h
    | succ j => simp [List.set, ih j (by simpa using h)]

/-- Writing back the value a slot already holds is a no-op. -/
theorem set_slotAt_self (l : List (Option c_OutputCommon)) (i : Nat)
    (v : Option c_OutputCommon) (h : slotAt l i = v) (hv : v.isSome) :
    l.set i v = l := by
  induction l generalizing i with
  | nil =>
    simp [slotAt, List.get?] at h
    subst h
    simp at hv
  | cons a rest ih =>
    cases i with
    | zero =>
      simp [slotAt, List.get?] at h
      simp [List.set, h]
    | succ j =>
      simp only [slotAt, List.get?] at h
      simp [List.set, ih j h]

/-- A slot that holds a driver is in range. -/
theorem slotAt_lt_length (l : List (Option c_OutputCommon)) (i : Nat)
    (d : c_OutputCommon) (h : slotAt l i = some d) : i < l.length := by
  induction l generalizing i with
  | nil => simp [slotAt, List.get?] at h
  | cons a rest ih =>
    cases i with
    | zero => simp
    | succ j =>
      simp only [slotAt, List.get?] at h
      simpa using ih j h

/-- The set-slot length is unchanged. -/
theorem length_set_drivers (l : List (Option c_OutputCommon)) (i : Nat)
    (v : Option c_OutputCommon) : (l.set i v).length = l.length :=
  List.length_set l i v

/-- The resolved type is always feasible for the descriptor it was
resolved against. -/
theorem typeFeasible_resolve (t : e_OutputType) (u : Int) :
    typeFeasible (resolveOutputType t u) u = true := by
  cases t <;> by_cases h : u = -1 <;>
    simp [resolveOutputType, typeFeasible, h]

/-- A feasible type resolves to itself. -/
theorem resolve_of_feasible (t : e_OutputType) (u : Int)
    (h : typeFeasible t u = true) : resolveOutputType t u = t := by
  simp [resolveOutputType, h]

/-- The `switch` constructs the driver for the resolved type, with the
slot ordinal and descriptor as constructor arguments. -/
theorem constructDriver_fst (i : Nat) (p u : Int) (t : e_OutputType) :
    (constructDriver i p u t).1 = ⟨i, p, u, resolveOutputType t u⟩ := by
  cases t <;> by_cases h : u = -1 <;>
    simp [constructDriver, resolveOutputType, typeFeasible, h]

/-- The `switch` never attempts a save. -/
theorem constructDriver_saveCount (i : Nat) (p u : Int) (t : e_OutputType) :
    saveAttemptCount (constructDriver i p u t).2 = 0 := by
  cases t <;> by_cases h : u = -1 <;>
    simp [constructDriver, h, saveAttemptCount, isSaveAttempt]

/-- The `switch` performs exactly one construction. -/
theorem constructDriver_constructCount (i : Nat) (p u : Int) (t : e_OutputType) :
    constructCount (constructDriver i p u t).2 = 1 := by
  cases t <;> by_cases h : u = -1 <;>
    simp [constructDriver, h, constructCount, isConstructEvent]

/-- The `switch` destroys nothing. -/
theorem constructDriver_destroyCount (i : Nat) (p u : Int) (t : e_OutputType) :
    destroyCount (constructDriver i p u t).2 = 0 := by
  cases t <;> by_cases h : u = -1 <;>
    simp [constructDriver, h, destroyCount, isDestroyEvent]

/-- Driver-array effect of `ensure`: the addressed slot ends with a
driver for the resolved type carrying its slot ordinal, and the array is
the original with only that slot rewritten. -/
theorem instDrivers_spec (i : Nat) (t : e_OutputType)
    (drivers : List (Option c_OutputCommon)) (_hi : i < drivers.length)
    (hcons : ∀ d, slotAt drivers i = some d →
      d.OutputChannelId = i ∧ typeFeasible d.OutputTypeVal (uartOf i) = true) :
    ∃ d, (instantiateNewOutputChannelDrivers i t drivers).1 = drivers.set i (some d) ∧
      d.OutputChannelId = i ∧ d.OutputTypeVal = resolveOutputType t (uartOf i) := by
  rcases h : slotAt drivers i with _ | cur
  · refine ⟨(constructDriver i (dataPinOf i) (uartOf i) t).1, ?_, ?_, ?_⟩ <;>
      simp [instantiateNewOutputChannelDrivers, h, constructDriver_fst]
  · obtain ⟨hid, hfeas⟩ := hcons cur h
    by_cases ht : cur.OutputTypeVal = t
    · refine ⟨cur, ?_, hid, ?_⟩
      · simp [instantiateNewOutputChannelDrivers, h, ht,
              set_slotAt_self drivers i (some cur) h rfl]
      · rw [ht] at hfeas ⊢
        exact (resolve_of_feasible t (uartOf i) hfeas).symm
    · refine ⟨(constructDriver i (dataPinOf i) (uartOf i) t).1, ?_, ?_, ?_⟩ <;>
        simp [instantiateNewOutputChannelDrivers, h, ht, constructDriver_fst]

/-- `ensure` leaves every other slot unchanged. -/
theorem instDrivers_slotAt_other (i j : Nat) (t : e_OutputType)
    (drivers : List (Option c_OutputCommon)) (h : j ≠ i) :
    slotAt (instantiateNewOutputChannelDrivers i t drivers).1 j = slotAt drivers j := by
  rcases hs : slotAt drivers i with _ | cur
  · simp [instantiateNewOutputChannelDrivers, hs, slotAt_set_other _ _ _ _ h]
  · by_cases ht : cur.OutputTypeVal = t <;>
      simp [instantiateNewOutputChannelDrivers, hs, ht, slotAt_set_other _ _ _ _ h]

/-- `ensure` preserves the slot count. -/
theorem instDrivers_length (i : Nat) (t : e_OutputType)
    (drivers : List (Option c_OutputCommon)) :
    (instantiateNewOutputChannelDrivers i t drivers).1.length = drivers.length := by
  rcases hs : slotAt drivers i with _ | cur
  · simp [instantiateNewOutputChannelDrivers, hs]
  · by_cases ht : cur.OutputTypeVal = t <;>
      simp [instantiateNewOutputChannelDrivers, hs, ht]

/-- Save-attempt counting distributes over concatenation. -/
theorem saveAttemptCount_append (l1 l2 : List Event) :
    saveAttemptCount (l1 ++ l2) = saveAttemptCount l1 + saveAttemptCount l2 := by
  simp [saveAttemptCount, List.filter_append]

/-- A destruction event is not a save attempt. -/
theorem saveAttemptCount_cons_destroy (a : Nat) (b : e_OutputType) (l : List Event) :
    saveAttemptCount (Event.destroy a b :: l) = saveAttemptCount l := by
  simp [saveAttemptCount, isSaveAttempt]

/-- A lookup past the end of the slot array gives nothing. -/
theorem slotAt_oor (l : List (Option c_OutputCommon)) (i : Nat)
    (h : l.length <= i) : slotAt l i = none := by
  induction l generalizing i with
  | nil => simp [slotAt, List.get?]
  | cons a rest ih =>
    cases i with
    | zero => simp at h
    | succ j => simpa [slotAt, List.get?] using ih j (by simpa using h)

/-- `ensure` never attempts a save. -/
theorem instDrivers_saveCount (i : Nat) (t : e_OutputType)
    (drivers : List (Option c_OutputCommon)) :
    saveAttemptCount (instantiateNewOutputChannelDrivers i t drivers).2 = 0 := by
  rcases hs : slotAt drivers i with _ | cur
  · simp [instantiateNewOutputChannelDrivers, hs, constructDriver_saveCount]
  · by_cases ht : cur.OutputTypeVal = t
    · simp [instantiateNewOutputChannelDrivers, hs, ht, saveAttemptCount, isSaveAttempt]
    · simp only [instantiateNewOutputChannelDrivers, hs, if_neg ht]
      rw [saveAttemptCount_cons_destroy]
      exact constructDriver_saveCount i (dataPinOf i) (uartOf i) t

/-- `ensure` preserves structural well-formedness. -/
theorem inst_wellFormed {α : Type} (s : c_OutputMgr α) (i : Nat) (t : e_OutputType)
    (hwf : MgrWellFormed s) :
    MgrWellFormed (InstantiateNewOutputChannel s i t).1 := by
  obtain ⟨hlen, hdrv⟩ := hwf
  by_cases hi : i < s.pOutputChannelDrivers.length
  · obtain ⟨d, hset, hid, hty⟩ :=
      instDrivers_spec i t s.pOutputChannelDrivers hi (fun d hd => hdrv i d hd)
    constructor
    · simpa [InstantiateNewOutputChannel, hset] using hlen
    · intro j e he
      by_cases hj : j = i
      · subst hj
        simp only [InstantiateNewOutputChannel, hset] at he
        rw [slotAt_set_self _ _ _ hi] at he
        cases he
        exact ⟨hid, by rw [hty]; exact typeFeasible_resolve t (uartOf j)⟩
      · simp only [InstantiateNewOutputChannel, hset] at he
        rw [slotAt_set_other _ _ _ _ hj] at he
        exact hdrv j e he
  · have hs : slotAt s.pOutputChannelDrivers i = none :=
      slotAt_oor _ _ (Nat.le_of_not_lt hi)
    have : (instantiateNewOutputChannelDrivers i t s.pOutputChannelDrivers).1 =
        s.pOutputChannelDrivers := by
      simp [instantiateNewOutputChannelDrivers, hs,
            set_oor _ _ _ (Nat.le_of_not_lt hi)]
    constructor
    · simpa [InstantiateNewOutputChannel, this] using hlen
    · intro j e he
      simp only [InstantiateNewOutputChannel, this] at he
      exact hdrv j e he

/-- The canonical all-disabled state is well-formed. -/
theorem mgr0_wellFormed : MgrWellFormed mgr0 := by
  constructor
  · rfl
  · intro i d h
    rcases i with _ | _ | _ | j
    · simp [mgr0, slotAt, List.get?] at h
      subst h
      decide
    · simp [mgr0, slotAt, List.get?] at h
      subst h
      decide
    · simp [mgr0, slotAt, List.get?] at h
      subst h
      decide
    · rw [slotAt_oor _ _ (by simp [mgr0])] at h
      cases h

/-- Claim C1: for every slot ordinal and every requested output type,
after `InstantiateNewOutputChannel` returns, the slot holds a non-null
driver whose reported type equals the requested type when the slot's
static UART id satisfies the type's requirement, and equals `Disabled`
otherwise. -/
theorem claim_C1_thm {α : Type} (s : c_OutputMgr α) (i : Nat) (T : e_OutputType)
    (hwf : MgrWellFormed s) (hi : i < OutputChannelId_End) :
    ∃ d, slotAt (InstantiateNewOutputChannel s i T).1.pOutputChannelDrivers i = some d ∧
      d.OutputTypeVal =
        (if typeFeasible T (uartOf i) then T else .OutputType_Disabled) := by
  obtain ⟨hlen, hdrv⟩ := hwf
  have hi' : i < s.pOutputChannelDrivers.length := by rw [hlen]; exact hi
  obtain ⟨d, hset, _, hty⟩ :=
    instDrivers_spec i T s.pOutputChannelDrivers hi' (fun d hd => hdrv i d hd)
  refine ⟨d, ?_, hty⟩
  simp only [InstantiateNewOutputChannel, hset]
  exact slotAt_set_self _ _ _ hi'

/-- Witness for claim C1: requesting `Relay` on slot 0 (which has a
UART, so the requirement fails) leaves a disabled driver in the slot. -/
theorem claim_C1_witness :
    ∃ d, slotAt (InstantiateNewOutputChannel mgr0 0
        e_OutputType.OutputType_Relay).1.pOutputChannelDrivers 0 = some d ∧
      d.OutputTypeVal =
        (if typeFeasible e_OutputType.OutputType_Relay (uartOf 0)
         then e_OutputType.OutputType_Relay else e_OutputType.OutputType_Disabled) :=
  claim_C1_thm mgr0 0 e_OutputType.OutputType_Relay mgr0_wellFormed (by decide)

/-- `ensure` is a no-op when the occupying driver already reports the
requested type. -/
theorem instDrivers_noop (i : Nat) (T : e_OutputType)
    (drivers : List (Option c_OutputCommon)) (d : c_OutputCommon)
    (h : slotAt drivers i = some d) (ht : d.OutputTypeVal = T) :
    instantiateNewOutputChannelDrivers i T drivers = (drivers, []) := by
  simp [instantiateNewOutputChannelDrivers, h, ht]

/-- Applying `ensure` twice with the same arguments leaves the same
driver array as applying it once. -/
theorem instDrivers_idem (i : Nat) (T : e_OutputType)
    (drivers : List (Option c_OutputCommon)) :
    (instantiateNewOutputChannelDrivers i T
        (instantiateNewOutputChannelDrivers i T drivers).1).1 =
      (instantiateNewOutputChannelDrivers i T drivers).1 := by
  rcases hs : slotAt drivers i with _ | cur
  · by_cases hi : i < drivers.length
    · have h1 : (instantiateNewOutputChannelDrivers i T drivers).1 =
          drivers.set i (some (constructDriver i (dataPinOf i) (uartOf i) T).1) := by
        simp [instantiateNewOutputChannelDrivers, hs]
      have hslot := slotAt_set_self drivers i
        (some (constructDriver i (dataPinOf i) (uartOf i) T).1) hi
      rw [h1]
      by_cases ht : (constructDriver i (dataPinOf i) (uartOf i) T).1.OutputTypeVal = T
      · simp [instantiateNewOutputChannelDrivers, hslot, ht]
      · simp [instantiateNewOutputChannelDrivers, hslot, ht, List.set_set]
    · have h1 : (instantiateNewOutputChannelDrivers i T drivers).1 = drivers := by
        simp [instantiateNewOutputChannelDrivers, hs,
              set_oor _ _ _ (Nat.le_of_not_lt hi)]
      rw [h1]
      exact h1
  · by_cases ht : cur.OutputTypeVal = T
    · have h1 : (instantiateNewOutputChannelDrivers i T drivers).1 = drivers := by
        simp [instantiateNewOutputChannelDrivers, hs, ht]
      rw [h1]
      exact h1
    · have hi : i < drivers.length := slotAt_lt_length _ _ _ hs
      have h1 : (instantiateNewOutputChannelDrivers i T drivers).1 =
          drivers.set i (some (constructDriver i (dataPinOf i) (uartOf i) T).1) := by
        simp [instantiateNewOutputChannelDrivers, hs, ht]
      have hslot := slotAt_set_self drivers i
        (some (constructDriver i (dataPinOf i) (uartOf i) T).1) hi
      rw [h1]
      by_cases htd : (constructDriver i (dataPinOf i) (uartOf i) T).1.OutputTypeVal = T
      · simp [instantiateNewOutputChannelDrivers, hslot, htd]
      · simp [instantiateNewOutputChannelDrivers, hslot, htd, List.set_set]

/-- Claim C6 (amended): calling `InstantiateNewOutputChannel(slot, T)`
twice in a row leaves observable state identical to the state after the
first call, and when the slot's current driver does not already report
`T` and `T` is feasible for the slot the two calls perform exactly one
destroy/construct cycle with the second call a no-op.  (As stated the
claim fails for infeasible `T`: the slot then holds a `Disabled` driver,
so the second call repeats the destroy/construct cycle.) -/
theorem claim_C6_thm {α : Type} (s : c_OutputMgr α) (i : Nat) (T : e_OutputType) :
    (InstantiateNewOutputChannel (InstantiateNewOutputChannel s i T).1 i T).1 =
      (InstantiateNewOutputChannel s i T).1 ∧
    (∀ cur, slotAt s.pOutputChannelDrivers i = some cur →
      cur.OutputTypeVal ≠ T → typeFeasible T (uartOf i) = true →
      constructCount (InstantiateNewOutputChannel s i T).2 = 1 ∧
      destroyCount (InstantiateNewOutputChannel s i T).2 = 1 ∧
      (InstantiateNewOutputChannel (InstantiateNewOutputChannel s i T).1 i T).2 = []) := by
  constructor
  · cases s
    simp [InstantiateNewOutputChannel, instDrivers_idem]
  · intro cur hs ht hfeas
    have hi : i < s.pOutputChannelDrivers.length := slotAt_lt_length _ _ _ hs
    have hdty : (constructDriver i (dataPinOf i) (uartOf i) T).1.OutputTypeVal = T := by
      rw [constructDriver_fst]
      exact resolve_of_feasible T (uartOf i) hfeas
    have hev : (InstantiateNewOutputChannel s i T).2 =
        Event.destroy i cur.OutputTypeVal :: (constructDriver i (dataPinOf i) (uartOf i) T).2 := by
      simp [InstantiateNewOutputChannel, instantiateNewOutputChannelDrivers, hs, ht]
    have h1 : (InstantiateNewOutputChannel s i T).1.pOutputChannelDrivers =
        s.pOutputChannelDrivers.set i
          (some (constructDriver i (dataPinOf i) (uartOf i) T).1) := by
      simp [InstantiateNewOutputChannel, instantiateNewOutputChannelDrivers, hs, ht]
    refine ⟨?_, ?_, ?_⟩
    · rw [hev]
      simpa [constructCount, isConstructEvent] using
        constructDriver_constructCount i (dataPinOf i) (uartOf i) T
    · rw [hev]
      simp only [destroyCount, List.filter, isDestroyEvent]
      simpa [destroyCount] using constructDriver_destroyCount i (dataPinOf i) (uartOf i) T
    · have hslot : slotAt (InstantiateNewOutputChannel s i T).1.pOutputChannelDrivers i =
          some (constructDriver i (dataPinOf i) (uartOf i) T).1 := by
        rw [h1]
        exact slotAt_set_self _ _ _ hi
      have h2 := instDrivers_noop i T
        (InstantiateNewOutputChannel s i T).1.pOutputChannelDrivers
        (constructDriver i (dataPinOf i) (uartOf i) T).1 hslot hdty
      show (instantiateNewOutputChannelDrivers i T
        (InstantiateNewOutputChannel s i T).1.pOutputChannelDrivers).2 = []
      rw [h2]

/-- Witness for claim C6 (amended): reconfiguring slot 0 from disabled
to DMX (feasible there) is one destroy/construct cycle and a second
identical call is a no-op. -/
theorem claim_C6_witness :
    constructCount (InstantiateNewOutputChannel mgr0 0 e_OutputType.OutputType_DMX).2 = 1 ∧
    destroyCount (InstantiateNewOutputChannel mgr0 0 e_OutputType.OutputType_DMX).2 = 1 ∧
    (InstantiateNewOutputChannel
        (InstantiateNewOutputChannel mgr0 0 e_OutputType.OutputType_DMX).1 0
        e_OutputType.OutputType_DMX).2 = [] :=
  (claim_C6_thm mgr0 0 e_OutputType.OutputType_DMX).2 (disabledDriverAt 0)
    (by decide) (by decide) (by decide)

/-- Counterexample to claim C6 as stated: requesting DMX on slot 2
(whose descriptor has no UART) twice performs two destroy/construct
cycles — the second call is not a no-op. -/
theorem claim_C6_counterexample :
    (InstantiateNewOutputChannel
        (InstantiateNewOutputChannel mgr0 2 e_OutputType.OutputType_DMX).1 2
        e_OutputType.OutputType_DMX).2 ≠ [] ∧
    constructCount ((InstantiateNewOutputChannel mgr0 2 e_OutputType.OutputType_DMX).2 ++
      (InstantiateNewOutputChannel
        (InstantiateNewOutputChannel mgr0 2 e_OutputType.OutputType_DMX).1 2
        e_OutputType.OutputType_DMX).2) = 2 := by
  decide

/-- The repartition loop produces one window per slot. -/
theorem udbr_length (capacity : Nat) (needs : List Nat) (off : Nat) :
    (UpdateDisplayBufferReferencesLoop capacity needs off).1.length = needs.length := by
  induction needs generalizing off with
  | nil => simp [UpdateDisplayBufferReferencesLoop]
  | cons n rest ih =>
    simpa [UpdateDisplayBufferReferencesLoop] using ih (off + min n (capacity - off))

/-- The first window of the repartition loop starts at the running
offset. -/
theorem udbr_head (capacity : Nat) (needs : List Nat) (off : Nat) (w : Nat × Nat)
    (h : (UpdateDisplayBufferReferencesLoop capacity needs off).1.head? = some w) :
    w.1 = off := by
  cases needs with
  | nil => simp [UpdateDisplayBufferReferencesLoop] at h
  | cons n rest =>
    simp [UpdateDisplayBufferReferencesLoop] at h
    rw [← h]

/-- Each window's size is the minimum of its slot's need and the
capacity remaining at its offset. -/
theorem udbr_grants (capacity : Nat) (needs : List Nat) (off : Nat) :
    ∀ p ∈ (UpdateDisplayBufferReferencesLoop capacity needs off).1.zip needs,
      p.1.2 = min p.2 (capacity - p.1.1) := by
  induction needs generalizing off with
  | nil => simp [UpdateDisplayBufferReferencesLoop]
  | cons n rest ih =>
    intro p hp
    simp only [UpdateDisplayBufferReferencesLoop, List.zip_cons_cons, List.mem_cons] at hp
    rcases hp with h | h
    · subst h; rfl
    · exact ih (off + min n (capacity - off)) p h

/-- Adjacent windows are contiguous: each window starts where the
previous one ends. -/
theorem udbr_contig (capacity : Nat) (needs : List Nat) (off : Nat) :
    ∀ q ∈ (UpdateDisplayBufferReferencesLoop capacity needs off).1.zip
        ((UpdateDisplayBufferReferencesLoop capacity needs off).1.drop 1),
      q.2.1 = q.1.1 + q.1.2 := by
  induction needs generalizing off with
  | nil => simp [UpdateDisplayBufferReferencesLoop]
  | cons n rest ih =>
    intro q hq
    simp only [UpdateDisplayBufferReferencesLoop, List.drop_succ_cons, List.drop_zero] at hq
    rcases hr1 : (UpdateDisplayBufferReferencesLoop capacity rest (off + min n (capacity - off))).1
      with _ | ⟨w1, ws⟩
    · rw [hr1] at hq
      simp at hq
    · rw [hr1] at hq
      simp only [List.zip_cons_cons, List.mem_cons] at hq
      rcases hq with h | h
      · subst h
        have := udbr_head capacity rest (off + min n (capacity - off)) w1 (by rw [hr1]; rfl)
        simpa using this
      · have := ih (off + min n (capacity - off)) q
        rw [hr1] at this
        exact this (by simpa using h)

/-- The final offset equals the initial offset plus the granted sizes. -/
theorem udbr_used (capacity : Nat) (needs : List Nat) (off : Nat) :
    (UpdateDisplayBufferReferencesLoop capacity needs off).2.1 =
      off + ((UpdateDisplayBufferReferencesLoop capacity needs off).1.map Prod.snd).sum := by
  induction needs generalizing off with
  | nil => simp [UpdateDisplayBufferReferencesLoop]
  | cons n rest ih =>
    simp only [UpdateDisplayBufferReferencesLoop, List.map_cons, List.sum_cons]
    rw [ih (off + min n (capacity - off))]
    omega

/-- The final offset never exceeds the capacity. -/
theorem udbr_cap (capacity : Nat) (needs : List Nat) (off : Nat)
    (h : off ≤ capacity) :
    (UpdateDisplayBufferReferencesLoop capacity needs off).2.1 ≤ capacity := by
  induction needs generalizing off with
  | nil => simpa [UpdateDisplayBufferReferencesLoop]
  | cons n rest ih =>
    simp only [UpdateDisplayBufferReferencesLoop]
    refine ih (off + min n (capacity - off)) ?_
    have := Nat.min_le_right n (capacity - off)
    omega

/-- The loop emits no event exactly when no slot's need exceeded the
remaining capacity at its offset. -/
theorem udbr_overflow (capacity : Nat) (needs : List Nat) (off : Nat) :
    (UpdateDisplayBufferReferencesLoop capacity needs off).2.2 = [] ↔
      ∀ p ∈ (UpdateDisplayBufferReferencesLoop capacity needs off).1.zip needs,
        ¬ (capacity - p.1.1 < p.2) := by
  induction needs generalizing off with
  | nil => simp [UpdateDisplayBufferReferencesLoop]
  | cons n rest ih =>
    by_cases hov : capacity - off < n
    · simp only [UpdateDisplayBufferReferencesLoop, hov, if_true, List.cons_append,
                 List.zip_cons_cons, eq_self_iff_true, if_pos]
      constructor
      · intro h; cases h
      · intro hall
        have hmem : ((off, min n (capacity - off)), n) ∈
            ((off, min n (capacity - off)),n) ::
              (UpdateDisplayBufferReferencesLoop capacity rest
                (off + min n (capacity - off))).1.zip rest :=
          List.mem_cons_self _ _
        exact absurd hov (by simpa using hall _ hmem)
    · simp only [UpdateDisplayBufferReferencesLoop, hov, List.nil_append,
                 List.zip_cons_cons, if_neg, if_false, ite_false]
      rw [ih (off + min n (capacity - off))]
      constructor
      · intro hall p hp
        rcases List.mem_cons.1 hp with h | h
        · subst h; simpa using hov
        · exact hall p h
      · intro hall p hp
        exact hall p (List.mem_cons_of_mem _ hp)

/-- Claim C2: the repartition loop over a list of per-slot needs and a
fixed capacity yields one window per slot, the first starting at offset
0, contiguous in slot order, each granted `min(need, capacity - offset)`;
the used size is the sum of the granted sizes and never exceeds the
capacity; an overflow message is emitted exactly when some slot's need
exceeded the remaining capacity, and the loop still processes every
remaining slot. -/
theorem claim_C2_thm (capacity : Nat) (needs : List Nat) :
    (UpdateDisplayBufferReferencesLoop capacity needs 0).1.length = needs.length ∧
    (∀ w, (UpdateDisplayBufferReferencesLoop capacity needs 0).1.head? = some w → w.1 = 0) ∧
    (∀ p ∈ (UpdateDisplayBufferReferencesLoop capacity needs 0).1.zip needs,
      p.1.2 = min p.2 (capacity - p.1.1)) ∧
    (∀ q ∈ (UpdateDisplayBufferReferencesLoop capacity needs 0).1.zip
        ((UpdateDisplayBufferReferencesLoop capacity needs 0).1.drop 1),
      q.2.1 = q.1.1 + q.1.2) ∧
    (UpdateDisplayBufferReferencesLoop capacity needs 0).2.1 =
      ((UpdateDisplayBufferReferencesLoop capacity needs 0).1.map Prod.snd).sum ∧
    (UpdateDisplayBufferReferencesLoop capacity needs 0).2.1 ≤ capacity ∧
    ((UpdateDisplayBufferReferencesLoop capacity needs 0).2.2 ≠ [] ↔
      ∃ p ∈ (UpdateDisplayBufferReferencesLoop capacity needs 0).1.zip needs,
        capacity - p.1.1 < p.2) := by
  refine ⟨udbr_length capacity needs 0,
          fun w hw => udbr_head capacity needs 0 w hw,
          udbr_grants capacity needs 0,
          udbr_contig capacity needs 0,
          by simpa using udbr_used capacity needs 0,
          udbr_cap capacity needs 0 (Nat.zero_le _), ?_⟩
  constructor
  · intro hne
    by_contra hno
    push_neg at hno
    exact hne ((udbr_overflow capacity needs 0).2 (fun p hp => Nat.not_lt.mpr (hno p hp)))
  · rintro ⟨p, hp, hlt⟩ hnil
    exact ((udbr_overflow capacity needs 0).1 hnil p hp) hlt

/-- Witness for claim C2 (the spec's own scenario): two 600-byte needs
against a 1000-byte capacity give windows [0,600) and [600,1000) with
the second truncated to 400, within capacity, and an overflow report. -/
theorem claim_C2_witness :
    (UpdateDisplayBufferReferencesLoop 1000 [600, 600] 0).1 = [(0, 600), (600, 400)] ∧
    (UpdateDisplayBufferReferencesLoop 1000 [600, 600] 0).2.1 ≤ 1000 ∧
    (UpdateDisplayBufferReferencesLoop 1000 [600, 600] 0).2.2 ≠ [] := by
  refine ⟨by decide, (claim_C2_thm 1000 [600, 600]).2.2.2.2.2.1, ?_⟩
  exact (claim_C2_thm 1000 [600, 600]).2.2.2.2.2.2.mpr
    ⟨((600, 400), 600), by decide, by decide⟩

/-- The settings sub-record for a (slot, type ordinal) pair inside a
channels object. -/
def getTypeRecordChs {α : Type} (chs : List (Nat × ChannelRecord α)) (slot t : Nat) :
    Option α :=
  match alookup chs slot with
  | none => none
  | some r => alookup r.typeRecords t

/-- `getTypeRecord` through the optional channels object. -/
theorem getTypeRecord_eq_chs {α : Type} (cfg : OutputConfigSection α) (slot t : Nat) :
    getTypeRecord cfg slot t = getTypeRecordChs (cfg.channels.getD []) slot t := by
  rcases cfg with ⟨_ | chs⟩ <;>
    simp [getTypeRecord, getChannelRecord, getTypeRecordChs, alookup]

/-- One encode step only rewrites its driver's channel record. -/
theorem cjcStep_record_other {α : Type} (env : Env α)
    (chs : List (Nat × ChannelRecord α)) (d : c_OutputCommon) (slot : Nat)
    (h : d.OutputChannelId ≠ slot) :
    alookup (createJsonConfigStep env chs d) slot = alookup chs slot := by
  simp only [createJsonConfigStep]
  exact alookup_aset_other _ _ _ _ (fun hc => h hc.symm)

/-- One encode step leaves every (slot, type) sub-record other than its
driver's active one unchanged. -/
theorem cjcStep_preserve {α : Type} (env : Env α)
    (chs : List (Nat × ChannelRecord α)) (d : c_OutputCommon) (slot t : Nat)
    (h : d.OutputChannelId = slot → d.OutputTypeVal.toNat ≠ t) :
    getTypeRecordChs (createJsonConfigStep env chs d) slot t =
      getTypeRecordChs chs slot t := by
  by_cases hid : d.OutputChannelId = slot
  · have ht : d.OutputTypeVal.toNat ≠ t := h hid
    subst hid
    simp only [getTypeRecordChs, createJsonConfigStep, alookup_aset_self]
    rcases hr : alookup chs d.OutputChannelId with _ | r
    · simp [hr, alookup]
      exact fun hc => ht hc.symm
    · simp [hr, alookup_aset_other _ _ _ _ (fun hc => ht hc.symm)]
  · simp [getTypeRecordChs, cjcStep_record_other env chs d slot hid]

/-- The encode fold leaves every (slot, type) sub-record unchanged when
no driver writes that slot with that active type. -/
theorem cjc_preserve {α : Type} (env : Env α) (ds : List c_OutputCommon) :
    ∀ (chs : List (Nat × ChannelRecord α)) (slot t : Nat),
    (∀ d ∈ ds, d.OutputChannelId = slot → d.OutputTypeVal.toNat ≠ t) →
    getTypeRecordChs (createJsonConfigChannels env ds chs) slot t =
      getTypeRecordChs chs slot t := by
  induction ds with
  | nil => intro chs slot t _; rfl
  | cons d rest ih =>
    intro chs slot t h
    have hstep := cjcStep_preserve env chs d slot t (h d (List.mem_cons_self _ _))
    have := ih (createJsonConfigStep env chs d) slot t
      (fun e he => h e (List.mem_cons_of_mem _ he))
    simpa [createJsonConfigChannels, List.foldl_cons, hstep] using this

/-- The encode fold ignores channel records of slots not among its
drivers. -/
theorem cjc_record_other {α : Type} (env : Env α) (ds : List c_OutputCommon) :
    ∀ (chs : List (Nat × ChannelRecord α)) (slot : Nat),
    (∀ d ∈ ds, d.OutputChannelId ≠ slot) →
    alookup (createJsonConfigChannels env ds chs) slot = alookup chs slot := by
  induction ds with
  | nil => intro chs slot _; rfl
  | cons d rest ih =>
    intro chs slot h
    have hstep := cjcStep_record_other env chs d slot (h d (List.mem_cons_self _ _))
    have := ih (createJsonConfigStep env chs d) slot
      (fun e he => h e (List.mem_cons_of_mem _ he))
    simpa [createJsonConfigChannels, List.foldl_cons, hstep] using this

/-- The encode fold writes each driver's channel record: the selected
type and the active type's settings sub-record (computed from the prior
record for that type). -/
theorem cjc_active {α : Type} (env : Env α) (ds : List c_OutputCommon) :
    ∀ (chs : List (Nat × ChannelRecord α)) (d : c_OutputCommon),
    d ∈ ds → (ds.map c_OutputCommon.OutputChannelId).Nodup →
    ∃ r, alookup (createJsonConfigChannels env ds chs) d.OutputChannelId = some r ∧
      r.channel_type = some d.OutputTypeVal.toNat ∧
      alookup r.typeRecords d.OutputTypeVal.toNat =
        some (env.emit d
          (getTypeRecordChs chs d.OutputChannelId d.OutputTypeVal.toNat)) := by
  induction ds with
  | nil => intro chs d h _; cases h
  | cons d0 rest ih =>
    intro chs d hmem hnd
    have hnd' : (rest.map c_OutputCommon.OutputChannelId).Nodup :=
      (List.nodup_cons.1 hnd).2
    rcases List.mem_cons.1 hmem with h | h
    · subst h
      have hothers : ∀ e ∈ rest, e.OutputChannelId ≠ d.OutputChannelId := by
        intro e he hc
        exact (List.nodup_cons.1 hnd).1 (hc ▸ List.mem_map_of_mem _ he)
      have hrec := cjc_record_other env rest (createJsonConfigStep env chs d)
        d.OutputChannelId hothers
      refine ⟨⟨some d.OutputTypeVal.toNat,
        aset ((alookup chs d.OutputChannelId).getD ⟨none, []⟩).typeRecords
          d.OutputTypeVal.toNat
          (env.emit d (alookup ((alookup chs d.OutputChannelId).getD
            ⟨none, []⟩).typeRecords d.OutputTypeVal.toNat))⟩, ?_, rfl, ?_⟩
      · rw [show createJsonConfigChannels env (d :: rest) chs =
            createJsonConfigChannels env rest (createJsonConfigStep env chs d) from rfl]
        rw [hrec]
        simp [createJsonConfigStep, alookup_aset_self]
      · rw [alookup_aset_self]
        rcases hr : alookup chs d.OutputChannelId with _ | r <;>
          simp [getTypeRecordChs, hr, alookup]
    · have hne : d0.OutputChannelId ≠ d.OutputChannelId := by
        intro hc
        exact (List.nodup_cons.1 hnd).1 (hc ▸ List.mem_map_of_mem _ h)
      obtain ⟨r, hr1, hr2, hr3⟩ := ih (createJsonConfigStep env chs d0) d h hnd'
      refine ⟨r, hr1, hr2, ?_⟩
      rw [hr3]
      have := cjcStep_preserve env chs d0 d.OutputChannelId d.OutputTypeVal.toNat
        (fun hc => absurd hc hne)
      rw [this]

/-- Claim C4: the encode (`CreateJsonConfig`) writes, per slot, only the
sub-record keyed by its driver's active type (plus the selected-type
field); every settings sub-record stored for any other type on any slot
is left unchanged. -/
theorem claim_C4_thm {α : Type} (env : Env α) (drivers : List c_OutputCommon)
    (cfg : OutputConfigSection α) :
    (∀ slot t, (∀ d ∈ drivers, d.OutputChannelId = slot → d.OutputTypeVal.toNat ≠ t) →
      getTypeRecord (CreateJsonConfig env drivers cfg) slot t =
        getTypeRecord cfg slot t) ∧
    (∀ d ∈ drivers, (drivers.map c_OutputCommon.OutputChannelId).Nodup →
      ∃ r, getChannelRecord (CreateJsonConfig env drivers cfg) d.OutputChannelId = some r ∧
        r.channel_type = some d.OutputTypeVal.toNat ∧
        alookup r.typeRecords d.OutputTypeVal.toNat =
          some (env.emit d
            (getTypeRecord cfg d.OutputChannelId d.OutputTypeVal.toNat))) := by
  constructor
  · intro slot t h
    have h2 : getTypeRecord (CreateJsonConfig env drivers cfg) slot t =
        getTypeRecordChs (createJsonConfigChannels env drivers (cfg.channels.getD [])) slot t := by
      simp [CreateJsonConfig, getTypeRecord, getChannelRecord, getTypeRecordChs]
    rw [h2, cjc_preserve env drivers (cfg.channels.getD []) slot t h,
        ← getTypeRecord_eq_chs]
  · intro d hd hnd
    obtain ⟨r, hr1, hr2, hr3⟩ := cjc_active env drivers (cfg.channels.getD []) d hd hnd
    refine ⟨r, ?_, hr2, ?_⟩
    · simpa [CreateJsonConfig, getChannelRecord] using hr1
    · rw [hr3, getTypeRecord_eq_chs]

/-- Witness for claim C4: encoding a slot-0 driver active on WS2811 over
a document that already stores a Relay sub-record for slot 0 leaves the
Relay sub-record intact and writes the WS2811 one. -/
theorem claim_C4_witness :
    getTypeRecord (CreateJsonConfig env0 [⟨0, 2, 1, .OutputType_WS2811⟩]
        ⟨some [(0, ⟨some 5, [(5, 77)]⟩)]⟩) 0 5 =
      getTypeRecord (⟨some [(0, ⟨some 5, [(5, 77)]⟩)]⟩ : OutputConfigSection Nat) 0 5 ∧
    ∃ r, getChannelRecord (CreateJsonConfig env0 [⟨0, 2, 1, .OutputType_WS2811⟩]
        ⟨some [(0, ⟨some 5, [(5, 77)]⟩)]⟩) 0 = some r ∧
      r.channel_type = some 0 ∧ alookup r.typeRecords 0 = some 0 := by
  have h := claim_C4_thm env0 [⟨0, 2, 1, .OutputType_WS2811⟩]
    (⟨some [(0, ⟨some 5, [(5, 77)]⟩)]⟩ : OutputConfigSection Nat)
  constructor
  · exact h.1 0 5 (by decide)
  · obtain ⟨r, hr1, hr2, hr3⟩ := h.2 ⟨0, 2, 1, .OutputType_WS2811⟩
      (List.mem_cons_self _ _) (by decide)
    exact ⟨r, hr1, hr2, hr3⟩

/-- The decode loop never touches slots whose ordinal it does not
process. -/
theorem pcl_slot_untouched {α : Type} (env : Env α)
    (ch : List (Nat × ChannelRecord α)) :
    ∀ (idxs : List Nat) (s : c_OutputMgr α) (R : Bool) (i : Nat), i ∉ idxs →
    slotAt ((processChannelLoop env ch idxs s R).1).pOutputChannelDrivers i =
      slotAt s.pOutputChannelDrivers i := by
  intro idxs
  induction idxs with
  | nil => intro s R i _; rfl
  | cons k rest ih =>
    intro s R i hi
    have hik : i ≠ k := fun hc => hi (hc ▸ List.mem_cons_self _ _)
    have hirest : i ∉ rest := fun hc => hi (List.mem_cons_of_mem _ hc)
    have hinst : ∀ t, slotAt (InstantiateNewOutputChannel s k t).1.pOutputChannelDrivers i =
        slotAt s.pOutputChannelDrivers i := by
      intro t
      exact instDrivers_slotAt_other k i t s.pOutputChannelDrivers hik
    rcases hk : alookup ch k with _ | cfg
    · simp [processChannelLoop, hk]
    · by_cases hty : (cfg.channel_type.getD OutputType_End) < OutputType_Start ∨
        OutputType_End ≤ (cfg.channel_type.getD OutputType_End)
      · simp only [processChannelLoop, hk, if_pos hty]
        rw [ih _ _ i hirest, hinst]
      · rcases hsett : alookup cfg.typeRecords (cfg.channel_type.getD OutputType_End)
          with _ | rec0
        · simp only [processChannelLoop, hk, if_neg hty, hsett]
          rw [ih _ _ i hirest, hinst]
        · simp only [processChannelLoop, hk, if_neg hty, hsett]
          rw [ih _ _ i hirest, hinst]

/-- The decode loop preserves the slot count. -/
theorem pcl_length {α : Type} (env : Env α)
    (ch : List (Nat × ChannelRecord α)) :
    ∀ (idxs : List Nat) (s : c_OutputMgr α) (R : Bool),
    ((processChannelLoop env ch idxs s R).1).pOutputChannelDrivers.length =
      s.pOutputChannelDrivers.length := by
  intro idxs
  induction idxs with
  | nil => intro s R; rfl
  | cons k rest ih =>
    intro s R
    have hinst : ∀ t, (InstantiateNewOutputChannel s k t).1.pOutputChannelDrivers.length =
        s.pOutputChannelDrivers.length := fun t =>
      instDrivers_length k t s.pOutputChannelDrivers
    rcases hk : alookup ch k with _ | cfg
    · simp [processChannelLoop, hk]
    · by_cases hty : (cfg.channel_type.getD OutputType_End) < OutputType_Start ∨
        OutputType_End ≤ (cfg.channel_type.getD OutputType_End)
      · simp only [processChannelLoop, hk, if_pos hty]
        rw [ih, hinst]
      · rcases hsett : alookup cfg.typeRecords (cfg.channel_type.getD OutputType_End)
          with _ | rec0
        · simp only [processChannelLoop, hk, if_neg hty, hsett]
          rw [ih, hinst]
        · simp only [processChannelLoop, hk, if_neg hty, hsett]
          rw [ih, hinst]

/-- A log line is not a save attempt. -/
theorem saveAttemptCount_cons_log (m : String) (l : List Event) :
    saveAttemptCount (Event.logMsg m :: l) = saveAttemptCount l := by
  simp [saveAttemptCount, isSaveAttempt]

/-- The decode loop never attempts a save. -/
theorem pcl_saveCount {α : Type} (env : Env α)
    (ch : List (Nat × ChannelRecord α)) :
    ∀ (idxs : List Nat) (s : c_OutputMgr α) (R : Bool),
    saveAttemptCount (processChannelLoop env ch idxs s R).2.2 = 0 := by
  intro idxs
  induction idxs with
  | nil => intro s R; rfl
  | cons k rest ih =>
    intro s R
    have hinst : ∀ t, saveAttemptCount (InstantiateNewOutputChannel s k t).2 = 0 := fun t =>
      instDrivers_saveCount k t s.pOutputChannelDrivers
    rcases hk : alookup ch k with _ | cfg
    · simp [processChannelLoop, hk, saveAttemptCount, isSaveAttempt]
    · by_cases hty : (cfg.channel_type.getD OutputType_End) < OutputType_Start ∨
        OutputType_End ≤ (cfg.channel_type.getD OutputType_End)
      · simp only [processChannelLoop, hk, if_pos hty]
        rw [saveAttemptCount_cons_log, saveAttemptCount_append, hinst _, ih _ _]
      · rcases hsett : alookup cfg.typeRecords (cfg.channel_type.getD OutputType_End)
          with _ | rec0
        · simp only [processChannelLoop, hk, if_neg hty, hsett]
          rw [saveAttemptCount_cons_log, saveAttemptCount_append, hinst _, ih _ _]
        · simp only [processChannelLoop, hk, if_neg hty, hsett]
          rw [saveAttemptCount_append, hinst _, ih _ _]

/-- The decode loop preserves every manager field other than the driver
array. -/
theorem pcl_fields {α : Type} (env : Env α)
    (ch : List (Nat × ChannelRecord α)) :
    ∀ (idxs : List Nat) (s : c_OutputMgr α) (R : Bool),
    ((processChannelLoop env ch idxs s R).1).ConfigData = s.ConfigData ∧
    ((processChannelLoop env ch idxs s R).1).ConfigSaveNeeded = s.ConfigSaveNeeded ∧
    ((processChannelLoop env ch idxs s R).1).HasBeenInitialized = s.HasBeenInitialized := by
  intro idxs
  induction idxs with
  | nil => intro s R; exact ⟨rfl, rfl, rfl⟩
  | cons k rest ih =>
    intro s R
    rcases hk : alookup ch k with _ | cfg
    · simp [processChannelLoop, hk]
    · by_cases hty : (cfg.channel_type.getD OutputType_End) < OutputType_Start ∨
        OutputType_End ≤ (cfg.channel_type.getD OutputType_End)
      · simp only [processChannelLoop, hk, if_pos hty]
        exact ih _ _
      · rcases hsett : alookup cfg.typeRecords (cfg.channel_type.getD OutputType_End)
          with _ | rec0
        · simp only [processChannelLoop, hk, if_neg hty, hsett]
          exact ih _ _
        · simp only [processChannelLoop, hk, if_neg hty, hsett]
          exact ih _ _

/-- Requesting `Disabled` always leaves a `Disabled` driver in an
in-range slot (no feasibility assumption is needed). -/
theorem instDrivers_disabled_spec (i : Nat) (drivers : List (Option c_OutputCommon))
    (_hi : i < drivers.length) :
    ∃ d, (instantiateNewOutputChannelDrivers i .OutputType_Disabled drivers).1 =
        drivers.set i (some d) ∧ d.OutputTypeVal = .OutputType_Disabled := by
  rcases hs : slotAt drivers i with _ | cur
  · refine ⟨(constructDriver i (dataPinOf i) (uartOf i) .OutputType_Disabled).1, ?_, ?_⟩
    · simp [instantiateNewOutputChannelDrivers, hs]
    · rw [constructDriver_fst]
      rfl
  · by_cases ht : cur.OutputTypeVal = .OutputType_Disabled
    · exact ⟨cur, by
        simp [instantiateNewOutputChannelDrivers, hs, ht,
              set_slotAt_self drivers i (some cur) hs rfl], ht⟩
    · refine ⟨(constructDriver i (dataPinOf i) (uartOf i) .OutputType_Disabled).1, ?_, ?_⟩
      · simp [instantiateNewOutputChannelDrivers, hs, ht]
      · rw [constructDriver_fst]
        rfl

/-- When every channel ordinal of a prefix is present in the channels
object, the decode loop processes the prefix and then behaves as the
loop over the remaining ordinals from some intermediate state (with the
same slot count); in particular it does not stop inside the prefix. -/
theorem pcl_prefix {α : Type} (env : Env α) (ch : List (Nat × ChannelRecord α)) :
    ∀ (pre rest : List Nat) (s : c_OutputMgr α) (R : Bool),
    (∀ k ∈ pre, (alookup ch k).isSome) →
    ∃ (s' : c_OutputMgr α) (R' : Bool) (evs : List Event),
      processChannelLoop env ch (pre ++ rest) s R =
        ((processChannelLoop env ch rest s' R').1,
         (processChannelLoop env ch rest s' R').2.1,
         evs ++ (processChannelLoop env ch rest s' R').2.2) ∧
      s'.pOutputChannelDrivers.length = s.pOutputChannelDrivers.length := by
  intro pre
  induction pre with
  | nil =>
    intro rest s R _
    exact ⟨s, R, [], rfl, rfl⟩
  | cons k pre' ih =>
    intro rest s R hpre
    have hk : (alookup ch k).isSome := hpre k (List.mem_cons_self _ _)
    rcases hk' : alookup ch k with _ | cfg
    · rw [hk'] at hk; cases hk
    · have hpre' : ∀ j ∈ pre', (alookup ch j).isSome :=
        fun j hj => hpre j (List.mem_cons_of_mem _ hj)
      by_cases hty : (cfg.channel_type.getD OutputType_End) < OutputType_Start ∨
          OutputType_End ≤ (cfg.channel_type.getD OutputType_End)
      · obtain ⟨s', R', evs, heq, hlen⟩ := ih rest
          (InstantiateNewOutputChannel s k .OutputType_Disabled).1 R hpre'
        refine ⟨s', R', Event.logMsg ("Invalid Channel Type in config for channel " ++ toString k)
            :: ((InstantiateNewOutputChannel s k .OutputType_Disabled).2 ++ evs), ?_, ?_⟩
        · show processChannelLoop env ch (k :: (pre' ++ rest)) s R = _
          simp only [processChannelLoop, hk', if_pos hty, heq]
          simp [List.append_assoc]
        · rw [hlen]
          exact instDrivers_length k _ s.pOutputChannelDrivers
      · rcases hsett : alookup cfg.typeRecords (cfg.channel_type.getD OutputType_End)
            with _ | rec0
        · obtain ⟨s', R', evs, heq, hlen⟩ := ih rest
            (InstantiateNewOutputChannel s k .OutputType_Disabled).1 R hpre'
          refine ⟨s', R',
            Event.logMsg ("No Output Settings Found for Channel " ++ toString k)
              :: ((InstantiateNewOutputChannel s k .OutputType_Disabled).2 ++ evs), ?_, ?_⟩
          · show processChannelLoop env ch (k :: (pre' ++ rest)) s R = _
            simp only [processChannelLoop, hk', if_neg hty, hsett, heq]
            simp [List.append_assoc]
          · rw [hlen]
            exact instDrivers_length k _ s.pOutputChannelDrivers
        · set s1 := (InstantiateNewOutputChannel s k
            (e_OutputType.fromNat (cfg.channel_type.getD OutputType_End))).1 with hs1
          set accepted :=
            (match slotAt s1.pOutputChannelDrivers k with
             | some d => env.accept d rec0
             | none => false) with hacc
          obtain ⟨s', R', evs, heq, hlen⟩ := ih rest s1 (R || accepted) hpre'
          refine ⟨s', R',
            (InstantiateNewOutputChannel s k
              (e_OutputType.fromNat (cfg.channel_type.getD OutputType_End))).2 ++ evs, ?_, ?_⟩
          · show processChannelLoop env ch (k :: (pre' ++ rest)) s R = _
            simp only [processChannelLoop, hk', if_neg hty, hsett]
            rw [← hs1, ← hacc, heq]
            simp [List.append_assoc]
          · rw [hlen, hs1]
            exact instDrivers_length k _ s.pOutputChannelDrivers

/-- A decode-loop step whose channel record is present but whose type
field is missing or out of range disables that channel, logs, and the
rest of the loop leaves the disabled driver in place. -/
theorem pcl_defect_head {α : Type} (env : Env α) (ch : List (Nat × ChannelRecord α))
    (i : Nat) (tail : List Nat) (s' : c_OutputMgr α) (R' : Bool)
    (cfgi : ChannelRecord α) (hrec : alookup ch i = some cfgi)
    (hbad : cfgi.channel_type.getD OutputType_End < OutputType_Start ∨
      OutputType_End ≤ cfgi.channel_type.getD OutputType_End)
    (hi : i < s'.pOutputChannelDrivers.length) (hnot : i ∉ tail) :
    (∃ d, slotAt ((processChannelLoop env ch (i :: tail) s' R').1).pOutputChannelDrivers i =
        some d ∧ d.OutputTypeVal = .OutputType_Disabled) ∧
    Event.logMsg ("Invalid Channel Type in config for channel " ++ toString i) ∈
      (processChannelLoop env ch (i :: tail) s' R').2.2 := by
  obtain ⟨d, hset, hty⟩ := instDrivers_disabled_spec i s'.pOutputChannelDrivers hi
  have hslot1 : slotAt (InstantiateNewOutputChannel s' i .OutputType_Disabled).1.pOutputChannelDrivers i =
      some d := by
    show slotAt (instantiateNewOutputChannelDrivers i .OutputType_Disabled
      s'.pOutputChannelDrivers).1 i = some d
    rw [hset]
    exact slotAt_set_self _ _ _ hi
  constructor
  · refine ⟨d, ?_, hty⟩
    simp only [processChannelLoop, hrec, if_pos hbad]
    rw [pcl_slot_untouched env ch tail _ R' i hnot, hslot1]
  · simp only [processChannelLoop, hrec, if_pos hbad]
    exact List.mem_cons_self _ _

/-- Claim C3 (amended): during decode, for a slot in the canonical range
whose channel record is present (and with every lower-ordinal channel
record also present, so the loop reaches it), a missing type field or a
type field outside the valid range causes that slot to be disabled and
logged, and decode continues (the defect never stops the loop).  (As
stated the claim fails for a missing channel sub-section: that stops the
per-channel loop, see the counterexample.) -/
theorem claim_C3_thm {α : Type} (env : Env α) (s : c_OutputMgr α)
    (ch : List (Nat × ChannelRecord α)) (i : Nat) (cfgi : ChannelRecord α)
    (hlen : s.pOutputChannelDrivers.length = OutputChannelId_End)
    (hi : i < OutputChannelId_End)
    (hpre : ∀ k, k < i → (alookup ch k).isSome)
    (hrec : alookup ch i = some cfgi)
    (hbad : cfgi.channel_type.getD OutputType_End < OutputType_Start ∨
      OutputType_End ≤ cfgi.channel_type.getD OutputType_End) :
    (∃ d, slotAt (ProcessJsonConfig env s
        ⟨some ⟨some ch⟩⟩).1.pOutputChannelDrivers i = some d ∧
      d.OutputTypeVal = .OutputType_Disabled) ∧
    Event.logMsg ("Invalid Channel Type in config for channel " ++ toString i) ∈
      (ProcessJsonConfig env s ⟨some ⟨some ch⟩⟩).2.2 := by
  set s0 : c_OutputMgr α := { s with ConfigData := ⟨some ⟨some ch⟩⟩ } with hs0
  have hlen0 : s0.pOutputChannelDrivers.length = OutputChannelId_End := hlen
  have hkey : ∀ (pre tail : List Nat),
      List.range OutputChannelId_End = pre ++ (i :: tail) →
      (∀ k ∈ pre, k < i) → i ∉ tail →
      (∃ d, slotAt (ProcessJsonConfig env s
          ⟨some ⟨some ch⟩⟩).1.pOutputChannelDrivers i = some d ∧
        d.OutputTypeVal = .OutputType_Disabled) ∧
      Event.logMsg ("Invalid Channel Type in config for channel " ++ toString i) ∈
        (ProcessJsonConfig env s ⟨some ⟨some ch⟩⟩).2.2 := by
    intro pre tail hdecomp hprelt hnot
    obtain ⟨s', R', evs, heq, hlen'⟩ := pcl_prefix env ch pre (i :: tail) s0 false
      (fun k hk => hpre k (hprelt k hk))
    have hi' : i < s'.pOutputChannelDrivers.length := by
      rw [hlen', hlen0]
      exact hi
    obtain ⟨hstep, hmem⟩ :=
      pcl_defect_head env ch i tail s' R' cfgi hrec hbad hi' hnot
    have hdrv : (ProcessJsonConfig env s ⟨some ⟨some ch⟩⟩).1.pOutputChannelDrivers =
        ((processChannelLoop env ch (List.range OutputChannelId_End) s0 false).1).pOutputChannelDrivers := rfl
    have hevs : (ProcessJsonConfig env s ⟨some ⟨some ch⟩⟩).2.2 =
        ((processChannelLoop env ch (List.range OutputChannelId_End) s0 false).2.2 ++ []) ++
          (UpdateDisplayBufferReferences env
            (processChannelLoop env ch (List.range OutputChannelId_End) s0 false).1).2 := rfl
    constructor
    · obtain ⟨d, hd1, hd2⟩ := hstep
      refine ⟨d, ?_, hd2⟩
      rw [hdrv, hdecomp, heq]
      exact hd1
    · rw [hevs, hdecomp, heq]
      exact List.mem_append_left _
        (List.mem_append_left _ (List.mem_append_right _ hmem))
  have hi3 : i < 3 := hi
  interval_cases i
  · exact hkey [] [1, 2] (by decide) (by decide) (by decide)
  · exact hkey [0] [2] (by decide) (by decide) (by decide)
  · exact hkey [0, 1] [] (by decide) (by decide) (by decide)

/-- Witness for claim C3 (amended): a document whose slot-1 record
carries type ordinal 99 (out of range) disables slot 1, logs, and slot
2's valid record is still processed (the loop continues). -/
theorem claim_C3_witness :
    (∃ d, slotAt (ProcessJsonConfig env0 mgr0
        ⟨some ⟨some [(0, ⟨some 0, [(0, 42)]⟩), (1, ⟨some 99, []⟩),
          (2, ⟨some 5, [(5, 43)]⟩)]⟩⟩).1.pOutputChannelDrivers 1 = some d ∧
      d.OutputTypeVal = .OutputType_Disabled) ∧
    Event.logMsg ("Invalid Channel Type in config for channel " ++ toString 1) ∈
      (ProcessJsonConfig env0 mgr0
        ⟨some ⟨some [(0, ⟨some 0, [(0, 42)]⟩), (1, ⟨some 99, []⟩),
          (2, ⟨some 5, [(5, 43)]⟩)]⟩⟩).2.2 :=
  claim_C3_thm env0 mgr0
    [(0, ⟨some 0, [(0, 42)]⟩), (1, ⟨some 99, []⟩), (2, ⟨some 5, [(5, 43)]⟩)]
    1 ⟨some 99, []⟩ (by decide) (by decide)
    (by intro k hk; interval_cases k; decide) (by decide) (by decide)

/-- Counterexample to claim C3 as stated: a document whose channels
object lacks slot 0 but holds a valid, feasible WS2811 request for
slot 1 leaves slot 1 untouched (still disabled) — the missing channel
sub-section stops the decode loop instead of continuing to the next
slot ordinal. -/
theorem claim_C3_counterexample :
    slotAt (ProcessJsonConfig env0 mgr0
        ⟨some ⟨some [(1, ⟨some 0, [(0, 42)]⟩)]⟩⟩).1.pOutputChannelDrivers 1 =
      some (disabledDriverAt 1) ∧
    (disabledDriverAt 1).OutputTypeVal ≠ .OutputType_WS2811 := by
  decide

/-- Does a document carry both the output section and its channels
object?  (`ProcessJsonConfig` reports success exactly in this case.) -/
def configHasSections {α : Type} (doc : JsonRoot α) : Bool :=
  match doc.output_config with
  | none => false
  | some sec => sec.channels.isSome

/-- The repartition loop never attempts a save. -/
theorem udbrLoop_saveCount (capacity : Nat) (needs : List Nat) (off : Nat) :
    saveAttemptCount (UpdateDisplayBufferReferencesLoop capacity needs off).2.2 = 0 := by
  induction needs generalizing off with
  | nil => rfl
  | cons n rest ih =>
    simp only [UpdateDisplayBufferReferencesLoop]
    rw [saveAttemptCount_append]
    rw [ih (off + min n (capacity - off))]
    by_cases hov : capacity - off < n <;>
      simp [hov, saveAttemptCount, isSaveAttempt]

/-- `UpdateDisplayBufferReferences` never attempts a save. -/
theorem udbr_saveCount {α : Type} (env : Env α) (s : c_OutputMgr α) :
    saveAttemptCount (UpdateDisplayBufferReferences env s).2 = 0 := by
  show saveAttemptCount
    ((UpdateDisplayBufferReferencesLoop env.bufferCapacity
        ((currentDrivers s).map env.needOf) 0).2.2 ++
      [Event.setBufferInfo (UpdateDisplayBufferReferencesLoop env.bufferCapacity
        ((currentDrivers s).map env.needOf) 0).2.1]) = 0
  rw [saveAttemptCount_append, udbrLoop_saveCount]
  rfl

/-- The channel-instantiation fold of `CreateNewConfig` and `Begin`
never attempts a save. -/
theorem instFold_saveCount {α : Type} (t : e_OutputType) :
    ∀ (idxs : List Nat) (s : c_OutputMgr α) (ev0 : List Event),
    saveAttemptCount ((idxs.foldl (fun acc i =>
      let r := InstantiateNewOutputChannel acc.1 i t
      (r.1, acc.2 ++ r.2)) (s, ev0)).2) = saveAttemptCount ev0 := by
  intro idxs
  induction idxs with
  | nil => intro s ev0; rfl
  | cons k rest ih =>
    intro s ev0
    simp only [List.foldl_cons]
    rw [ih]
    rw [saveAttemptCount_append]
    rw [show (InstantiateNewOutputChannel s k t).2 =
      (instantiateNewOutputChannelDrivers k t s.pOutputChannelDrivers).2 from rfl]
    rw [instDrivers_saveCount]
    omega

/-- `instantiateAllChannels` never attempts a save. -/
theorem instantiateAllChannels_saveCount {α : Type} (s : c_OutputMgr α)
    (t : e_OutputType) :
    saveAttemptCount (instantiateAllChannels s t).2 = 0 :=
  instFold_saveCount t (List.range OutputChannelId_End) s []

/-- The final (channel-0-only) disable loop never attempts a save. -/
theorem disableLoop_saveCount {α : Type} :
    ∀ (idxs : List Nat) (s : c_OutputMgr α) (ev0 : List Event),
    saveAttemptCount ((idxs.foldl (fun acc (_ : Nat) =>
      let r := InstantiateNewOutputChannel acc.1 0 e_OutputType.OutputType_Disabled
      (r.1, acc.2 ++ r.2)) (s, ev0)).2) = saveAttemptCount ev0 := by
  intro idxs
  induction idxs with
  | nil => intro s ev0; rfl
  | cons k rest ih =>
    intro s ev0
    simp only [List.foldl_cons]
    rw [ih]
    rw [saveAttemptCount_append]
    rw [show (InstantiateNewOutputChannel s 0 e_OutputType.OutputType_Disabled).2 =
      (instantiateNewOutputChannelDrivers 0 e_OutputType.OutputType_Disabled
        s.pOutputChannelDrivers).2 from rfl]
    rw [instDrivers_saveCount]
    omega

/-- The per-type fold of `CreateNewConfig` never attempts a save. -/
theorem cncFold_saveCount {α : Type} (env : Env α) :
    ∀ (tIds : List Nat) (s : c_OutputMgr α) (cfg : OutputConfigSection α)
      (ev0 : List Event),
    saveAttemptCount ((tIds.foldl (createNewConfigTypeStep env) (s, cfg, ev0)).2.2) =
      saveAttemptCount ev0 := by
  intro tIds
  induction tIds with
  | nil => intro s cfg ev0; rfl
  | cons t rest ih =>
    intro s cfg ev0
    simp only [List.foldl_cons, createNewConfigTypeStep]
    rw [ih]
    rw [saveAttemptCount_append, instantiateAllChannels_saveCount]
    omega

/-- `CreateNewConfig` performs exactly one save attempt. -/
theorem cnc_saveCount {α : Type} (env : Env α) (s : c_OutputMgr α) :
    saveAttemptCount (CreateNewConfig env s).2 = 1 := by
  show saveAttemptCount
    (((List.range OutputType_End).foldl (createNewConfigTypeStep env)
        (s, (⟨none⟩ : OutputConfigSection α), [])).2.2 ++
      (disableChannelZeroLoop ((List.range OutputType_End).foldl
        (createNewConfigTypeStep env) (s, ⟨none⟩, [])).1).2 ++
      (SaveConfig env _).2) = 1
  rw [saveAttemptCount_append, saveAttemptCount_append, cncFold_saveCount]
  rw [show ∀ (x : c_OutputMgr α), (disableChannelZeroLoop x).2 =
    ((List.range OutputChannelId_End).foldl (fun acc (_ : Nat) =>
      let r := InstantiateNewOutputChannel acc.1 0 e_OutputType.OutputType_Disabled
      (r.1, acc.2 ++ r.2)) (x, [])).2 from fun x => rfl]
  rw [disableLoop_saveCount]
  rfl

/-- `CreateNewConfig` clears the dirty flag (the save it performs is
immediate, not deferred). -/
theorem cnc_flag {α : Type} (env : Env α) (s : c_OutputMgr α) :
    (CreateNewConfig env s).1.ConfigSaveNeeded = false := rfl

/-- Claim C7 (amended): `ProcessJsonConfig` accumulates the OR of the
drivers' acceptance results but then overwrites it — it returns `true`
exactly when the document carries the output section and channels
object, and regenerates a default document (one save attempt) exactly
when it returns `false`. -/
theorem claim_C7_thm {α : Type} (env : Env α) (s : c_OutputMgr α) (doc : JsonRoot α) :
    (ProcessJsonConfig env s doc).2.1 = configHasSections doc ∧
    (configHasSections doc = false →
      saveAttemptCount (ProcessJsonConfig env s doc).2.2 = 1) ∧
    (configHasSections doc = true →
      saveAttemptCount (ProcessJsonConfig env s doc).2.2 = 0) := by
  rcases doc with ⟨_ | ⟨_ | ch⟩⟩
  · refine ⟨rfl, fun _ => ?_, fun h => by simp [configHasSections] at h⟩
    show saveAttemptCount
      (([Event.logMsg "No Output Interface Settings Found. Using Defaults"] ++
        (CreateNewConfig env _).2) ++
        (UpdateDisplayBufferReferences env _).2) = 1
    rw [saveAttemptCount_append, saveAttemptCount_append, cnc_saveCount, udbr_saveCount]
    rfl
  · refine ⟨rfl, fun _ => ?_, fun h => by simp [configHasSections] at h⟩
    show saveAttemptCount
      (([Event.logMsg "No Output Channel Settings Found. Using Defaults"] ++
        (CreateNewConfig env _).2) ++
        (UpdateDisplayBufferReferences env _).2) = 1
    rw [saveAttemptCount_append, saveAttemptCount_append, cnc_saveCount, udbr_saveCount]
    rfl
  · refine ⟨rfl, fun h => by simp [configHasSections] at h, fun _ => ?_⟩
    show saveAttemptCount
      (((processChannelLoop env ch (List.range OutputChannelId_End) _ false).2.2 ++ []) ++
        (UpdateDisplayBufferReferences env _).2) = 0
    rw [saveAttemptCount_append, saveAttemptCount_append, pcl_saveCount, udbr_saveCount]
    rfl

/-- Witness for claim C7 (amended): a document without the output
section yields a `false` decode result and exactly one regeneration
save attempt. -/
theorem claim_C7_witness :
    (ProcessJsonConfig env0 mgr0 ⟨none⟩).2.1 = configHasSections (⟨none⟩ : JsonRoot Nat) ∧
    saveAttemptCount (ProcessJsonConfig env0 mgr0 ⟨none⟩).2.2 = 1 :=
  ⟨(claim_C7_thm env0 mgr0 ⟨none⟩).1,
   (claim_C7_thm env0 mgr0 ⟨none⟩).2.1 (by decide)⟩

/-- Counterexample to claim C7 as stated: with every driver rejecting
its settings (`accept` constantly false), the decode of a well-sectioned
document still returns `true` and performs no regeneration — the OR of
the acceptance results is overwritten by the source's final
`Response = true`. -/
theorem claim_C7_counterexample :
    (ProcessJsonConfig env0 mgr0
      ⟨some ⟨some [(0, ⟨some 0, [(0, 42)]⟩), (1, ⟨some 0, [(0, 42)]⟩),
        (2, ⟨some 5, [(5, 42)]⟩)]⟩⟩).2.1 = true ∧
    saveAttemptCount (ProcessJsonConfig env0 mgr0
      ⟨some ⟨some [(0, ⟨some 0, [(0, 42)]⟩), (1, ⟨some 0, [(0, 42)]⟩),
        (2, ⟨some 5, [(5, 42)]⟩)]⟩⟩).2.2 = 0 := by
  decide

/-- A concrete environment whose persistence collaborator fails both
load and save. -/
def env1 : Env Nat :=
  ⟨fun _ _ => 0, fun _ => 0, fun _ _ => false, false, none, 0⟩

/-- Claim C8: when loading the stored configuration fails, the manager
regenerates a complete default document via `CreateNewConfig` and
immediately performs exactly one save attempt; the dirty flag stays
clear (no deferred retry is scheduled) and a save failure only adds a
log line. -/
theorem claim_C8_thm {α : Type} (env : Env α) (s : c_OutputMgr α)
    (hload : env.loadResult = none) :
    LoadConfig env s = ((CreateNewConfig env s).1,
      Event.logMsg "Error loading Output Manager Config File" ::
        (CreateNewConfig env s).2) ∧
    saveAttemptCount (LoadConfig env s).2 = 1 ∧
    (LoadConfig env s).1.ConfigSaveNeeded = false ∧
    (env.saveOk = false →
      Event.logMsg "Error Saving Output Manager Config File" ∈ (LoadConfig env s).2) := by
  have heq : LoadConfig env s = ((CreateNewConfig env s).1,
      Event.logMsg "Error loading Output Manager Config File" ::
        (CreateNewConfig env s).2) := by
    simp [LoadConfig, hload]
  refine ⟨heq, ?_, ?_, ?_⟩
  · rw [heq]
    show saveAttemptCount (Event.logMsg _ :: (CreateNewConfig env s).2) = 1
    rw [saveAttemptCount_cons_log, cnc_saveCount]
  · rw [heq]
    exact cnc_flag env s
  · intro hsave
    rw [heq]
    refine List.mem_cons_of_mem _ ?_
    show Event.logMsg "Error Saving Output Manager Config File" ∈
      (((List.range OutputType_End).foldl (createNewConfigTypeStep env)
          (s, (⟨none⟩ : OutputConfigSection α), [])).2.2 ++
        (disableChannelZeroLoop ((List.range OutputType_End).foldl
          (createNewConfigTypeStep env) (s, ⟨none⟩, [])).1).2 ++
        (SaveConfig env _).2)
    refine List.mem_append_right _ ?_
    simp [SaveConfig, hsave]

/-- Witness for claim C8: with a failing loader and a failing saver, the
load path regenerates, attempts one save, leaves the flag clear and
logs the save failure. -/
theorem claim_C8_witness :
    LoadConfig env1 mgr0 = ((CreateNewConfig env1 mgr0).1,
      Event.logMsg "Error loading Output Manager Config File" ::
        (CreateNewConfig env1 mgr0).2) ∧
    saveAttemptCount (LoadConfig env1 mgr0).2 = 1 ∧
    (LoadConfig env1 mgr0).1.ConfigSaveNeeded = false ∧
    Event.logMsg "Error Saving Output Manager Config File" ∈ (LoadConfig env1 mgr0).2 := by
  obtain ⟨h1, h2, h3, h4⟩ := claim_C8_thm env1 mgr0 rfl
  exact ⟨h1, h2, h3, h4 rfl⟩

/-- A `SetConfig` with a well-sectioned document raises the dirty flag
and performs no save itself. -/
theorem setConfig_good {α : Type} (env : Env α) (s : c_OutputMgr α)
    (doc : JsonRoot α) (h : configHasSections doc = true) :
    (SetConfig env s doc).1.ConfigSaveNeeded = true ∧
    saveAttemptCount (SetConfig env s doc).2.2 = 0 ∧
    (SetConfig env s doc).2.1 = true := by
  rcases doc with ⟨_ | ⟨_ | ch⟩⟩
  · simp [configHasSections] at h
  · simp [configHasSections] at h
  · refine ⟨rfl, ?_, rfl⟩
    show saveAttemptCount
      (((processChannelLoop env ch (List.range OutputChannelId_End) _ false).2.2 ++ []) ++
        (UpdateDisplayBufferReferences env _).2) = 0
    rw [saveAttemptCount_append, saveAttemptCount_append, pcl_saveCount, udbr_saveCount]
    rfl

/-- A burst of configuration mutations: the fold of `SetConfig` over a
list of incoming documents, accumulating the emitted events. -/
def applySetConfigs {α : Type} (env : Env α) (s : c_OutputMgr α)
    (docs : List (JsonRoot α)) : c_OutputMgr α × List Event :=
  docs.foldl (fun acc doc =>
    ((SetConfig env acc.1 doc).1, acc.2 ++ (SetConfig env acc.1 doc).2.2)) (s, [])

/-- A burst of well-sectioned `SetConfig` calls performs no save, and
leaves the dirty flag raised as soon as the burst is non-empty. -/
theorem applySC_spec {α : Type} (env : Env α) :
    ∀ (docs : List (JsonRoot α)) (s : c_OutputMgr α) (ev0 : List Event),
    (∀ doc ∈ docs, configHasSections doc = true) →
    saveAttemptCount ((docs.foldl (fun acc doc =>
        ((SetConfig env acc.1 doc).1, acc.2 ++ (SetConfig env acc.1 doc).2.2))
        (s, ev0)).2) = saveAttemptCount ev0 ∧
    ((docs.foldl (fun acc doc =>
        ((SetConfig env acc.1 doc).1, acc.2 ++ (SetConfig env acc.1 doc).2.2))
        (s, ev0)).1).ConfigSaveNeeded =
      (if docs.isEmpty then s.ConfigSaveNeeded else true) := by
  intro docs
  induction docs with
  | nil => intro s ev0 _; exact ⟨rfl, rfl⟩
  | cons d rest ih =>
    intro s ev0 hgood
    have hd := setConfig_good env s d (hgood d (List.mem_cons_self _ _))
    have hrest : ∀ doc ∈ rest, configHasSections doc = true :=
      fun doc hdoc => hgood doc (List.mem_cons_of_mem _ hdoc)
    obtain ⟨ih1, ih2⟩ := ih (SetConfig env s d).1 (ev0 ++ (SetConfig env s d).2.2) hrest
    constructor
    · simp only [List.foldl_cons]
      rw [ih1, saveAttemptCount_append, hd.2.1]
      omega
    · simp only [List.foldl_cons]
      rw [ih2]
      cases rest with
      | nil => simpa using hd.1
      | cons a b => simp

/-- `Render` consumes the dirty flag: exactly one save attempt when the
flag was set, none otherwise, and the flag is clear afterwards; with a
clear flag `Render` changes nothing. -/
theorem render_spec {α : Type} (env : Env α) (s : c_OutputMgr α) :
    saveAttemptCount (Render env s).2 = (if s.ConfigSaveNeeded then 1 else 0) ∧
    (Render env s).1.ConfigSaveNeeded = false ∧
    (s.ConfigSaveNeeded = false → Render env s = (s, [])) := by
  by_cases h : s.ConfigSaveNeeded
  · refine ⟨?_, ?_, fun hc => by rw [hc] at h; cases h⟩
    · simp [Render, h, SaveConfig, saveAttemptCount, isSaveAttempt]
    · simp [Render, h, SaveConfig]
  · have h' : s.ConfigSaveNeeded = false := by simpa using h
    refine ⟨?_, ?_, fun _ => by simp [Render, h']⟩
    · simp [Render, h', saveAttemptCount, isSaveAttempt]
    · simp [Render, h']

/-- Claim C9 (amended): persistence is deferred and coalesced — a burst
of well-sectioned `SetConfig` calls performs no save itself and leaves
the dirty flag raised; the next `Render` consumes the flag and performs
exactly one save attempt regardless of the number of mutations, after
which the flag is clear.  (As stated the claim fails in that the flag
is raised for every document carrying the output section, even when
reconfiguration fails.) -/
theorem claim_C9_thm {α : Type} (env : Env α) (s : c_OutputMgr α)
    (docs : List (JsonRoot α))
    (hgood : ∀ doc ∈ docs, configHasSections doc = true) (hne : docs ≠ []) :
    saveAttemptCount (applySetConfigs env s docs).2 = 0 ∧
    (applySetConfigs env s docs).1.ConfigSaveNeeded = true ∧
    saveAttemptCount (Render env (applySetConfigs env s docs).1).2 = 1 ∧
    (Render env (applySetConfigs env s docs).1).1.ConfigSaveNeeded = false := by
  obtain ⟨h1, h2⟩ := applySC_spec env docs s [] hgood
  have hie : docs.isEmpty = false := by
    cases docs with
    | nil => exact absurd rfl hne
    | cons a b => rfl
  have hflag : (applySetConfigs env s docs).1.ConfigSaveNeeded = true := by
    show ((docs.foldl (fun acc doc =>
      ((SetConfig env acc.1 doc).1, acc.2 ++ (SetConfig env acc.1 doc).2.2))
      (s, [])).1).ConfigSaveNeeded = true
    rw [h2, hie]
    rfl
  obtain ⟨hr1, hr2, _⟩ := render_spec env (applySetConfigs env s docs).1
  refine ⟨h1, hflag, ?_, hr2⟩
  rw [hr1, hflag]
  rfl

/-- Witness for claim C9 (amended): two successive well-sectioned
mutations coalesce into a single save on the next render tick. -/
theorem claim_C9_witness :
    saveAttemptCount (applySetConfigs env0 mgr0
      [⟨some ⟨some []⟩⟩, ⟨some ⟨some []⟩⟩]).2 = 0 ∧
    (applySetConfigs env0 mgr0
      [⟨some ⟨some []⟩⟩, ⟨some ⟨some []⟩⟩]).1.ConfigSaveNeeded = true ∧
    saveAttemptCount (Render env0 (applySetConfigs env0 mgr0
      [⟨some ⟨some []⟩⟩, ⟨some ⟨some []⟩⟩]).1).2 = 1 ∧
    (Render env0 (applySetConfigs env0 mgr0
      [⟨some ⟨some []⟩⟩, ⟨some ⟨some []⟩⟩]).1).1.ConfigSaveNeeded = false :=
  claim_C9_thm env0 mgr0 [⟨some ⟨some []⟩⟩, ⟨some ⟨some []⟩⟩]
    (by decide) (by decide)

/-- Counterexample to claim C9 as stated: a document carrying the
output section but no channels object makes `SetConfig` report failure
yet still raise the dirty flag — the flag is not set only on successful
reconfiguration. -/
theorem claim_C9_counterexample :
    (SetConfig env0 mgr0 ⟨some ⟨none⟩⟩).2.1 = false ∧
    (SetConfig env0 mgr0 ⟨some ⟨none⟩⟩).1.ConfigSaveNeeded = true := by
  decide

/-- The channel-instantiation fold never touches the initialization
flag. -/
theorem instFold_init {α : Type} (t : e_OutputType) :
    ∀ (idxs : List Nat) (s : c_OutputMgr α) (ev0 : List Event),
    ((idxs.foldl (fun acc i =>
      let r := InstantiateNewOutputChannel acc.1 i t
      (r.1, acc.2 ++ r.2)) (s, ev0)).1).HasBeenInitialized = s.HasBeenInitialized := by
  intro idxs
  induction idxs with
  | nil => intro s ev0; rfl
  | cons k rest ih =>
    intro s ev0
    simp only [List.foldl_cons]
    exact ih _ _

/-- `instantiateAllChannels` never touches the initialization flag. -/
theorem instAll_init {α : Type} (s : c_OutputMgr α) (t : e_OutputType) :
    (instantiateAllChannels s t).1.HasBeenInitialized = s.HasBeenInitialized :=
  instFold_init t (List.range OutputChannelId_End) s []

/-- The final disable loop never touches the initialization flag. -/
theorem disableLoop_init {α : Type} :
    ∀ (idxs : List Nat) (s : c_OutputMgr α) (ev0 : List Event),
    ((idxs.foldl (fun acc (_ : Nat) =>
      let r := InstantiateNewOutputChannel acc.1 0 e_OutputType.OutputType_Disabled
      (r.1, acc.2 ++ r.2)) (s, ev0)).1).HasBeenInitialized = s.HasBeenInitialized := by
  intro idxs
  induction idxs with
  | nil => intro s ev0; rfl
  | cons k rest ih =>
    intro s ev0
    simp only [List.foldl_cons]
    exact ih _ _

/-- The per-type fold of `CreateNewConfig` never touches the
initialization flag. -/
theorem cncFold_init {α : Type} (env : Env α) :
    ∀ (tIds : List Nat) (s : c_OutputMgr α) (cfg : OutputConfigSection α)
      (ev0 : List Event),
    ((tIds.foldl (createNewConfigTypeStep env) (s, cfg, ev0)).1).HasBeenInitialized =
      s.HasBeenInitialized := by
  intro tIds
  induction tIds with
  | nil => intro s cfg ev0; rfl
  | cons t rest ih =>
    intro s cfg ev0
    simp only [List.foldl_cons, createNewConfigTypeStep]
    rw [ih]
    exact instAll_init _ _

/-- `CreateNewConfig` never touches the initialization flag. -/
theorem cnc_init {α : Type} (env : Env α) (s : c_OutputMgr α) :
    (CreateNewConfig env s).1.HasBeenInitialized = s.HasBeenInitialized := by
  have h1 : (CreateNewConfig env s).1.HasBeenInitialized =
      ((disableChannelZeroLoop (((List.range OutputType_End).foldl
        (createNewConfigTypeStep env) (s, ⟨none⟩, [])).1)).1).HasBeenInitialized := rfl
  rw [h1]
  rw [show ∀ (x : c_OutputMgr α), (disableChannelZeroLoop x).1 =
    ((List.range OutputChannelId_End).foldl (fun acc (_ : Nat) =>
      let r := InstantiateNewOutputChannel acc.1 0 e_OutputType.OutputType_Disabled
      (r.1, acc.2 ++ r.2)) (x, [])).1 from fun x => rfl]
  rw [disableLoop_init]
  exact cncFold_init env _ _ _ _

/-- `UpdateDisplayBufferReferences` never touches the initialization
flag. -/
theorem udbr_init {α : Type} (env : Env α) (x : c_OutputMgr α) :
    (UpdateDisplayBufferReferences env x).1.HasBeenInitialized =
      x.HasBeenInitialized := rfl

/-- `ProcessJsonConfig` never touches the initialization flag. -/
theorem pjc_init {α : Type} (env : Env α) (s : c_OutputMgr α) (doc : JsonRoot α) :
    (ProcessJsonConfig env s doc).1.HasBeenInitialized = s.HasBeenInitialized := by
  rcases doc with ⟨_ | ⟨_ | ch⟩⟩
  · simp [ProcessJsonConfig, udbr_init, cnc_init]
  · simp [ProcessJsonConfig, udbr_init, cnc_init]
  · simp only [ProcessJsonConfig, udbr_init]
    simp only [Bool.true_eq_false, if_false, ite_false, reduceIte]
    exact (pcl_fields env ch (List.range OutputChannelId_End) _ false).2.2

/-- `LoadConfig` never touches the initialization flag. -/
theorem load_init {α : Type} (env : Env α) (s : c_OutputMgr α) :
    (LoadConfig env s).1.HasBeenInitialized = s.HasBeenInitialized := by
  rcases h : env.loadResult with _ | doc
  · simp only [LoadConfig, h]
    exact cnc_init env s
  · simp only [LoadConfig, h]
    exact pjc_init env s doc

/-- Claim C10: `Begin` is idempotent at the public interface: a call on
an already-initialized manager returns immediately with no events and no
state change; any call leaves the manager initialized, so a second call
after any first call is a no-op. -/
theorem claim_C10_thm {α : Type} (env : Env α) (s : c_OutputMgr α) :
    (s.HasBeenInitialized = true → Begin env s = (s, [])) ∧
    (Begin env s).1.HasBeenInitialized = true ∧
    Begin env ((Begin env s).1) = ((Begin env s).1, []) := by
  have hnoop : ∀ x : c_OutputMgr α, x.HasBeenInitialized = true →
      Begin env x = (x, []) := by
    intro x hx
    simp [Begin, hx]
  have hinit : (Begin env s).1.HasBeenInitialized = true := by
    by_cases h : s.HasBeenInitialized = true
    · rw [hnoop s h]
      exact h
    · have hf : s.HasBeenInitialized = false := by simpa using h
      have hshow : (Begin env s).1 =
          (LoadConfig env (instantiateAllChannels
            { s with HasBeenInitialized := true } .OutputType_Disabled).1).1 := by
        simp [Begin, hf]
      rw [hshow, load_init, instAll_init]
  exact ⟨hnoop s, hinit, hnoop _ hinit⟩

/-- Witness for claim C10: a second `Begin` on the already-initialized
canonical state is a guarded no-op. -/
theorem claim_C10_witness :
    Begin env0 mgr0 = (mgr0, []) ∧
    Begin env0 (Begin env0 mgr0).1 = ((Begin env0 mgr0).1, []) :=
  ⟨(claim_C10_thm env0 mgr0).1 rfl, (claim_C10_thm env0 mgr0).2.2⟩

/-- One encode step never removes a (slot, type) sub-record. -/
theorem cjcStep_mono {α : Type} (env : Env α)
    (chs : List (Nat × ChannelRecord α)) (d : c_OutputCommon) (slot t : Nat)
    (h : (getTypeRecordChs chs slot t).isSome = true) :
    (getTypeRecordChs (createJsonConfigStep env chs d) slot t).isSome = true := by
  by_cases hid : d.OutputChannelId = slot
  · by_cases ht : t = d.OutputTypeVal.toNat
    · subst hid
      subst ht
      simp [getTypeRecordChs, createJsonConfigStep, alookup_aset_self]
    · rw [cjcStep_preserve env chs d slot t (fun _ => fun hc => ht hc.symm)]
      exact h
  · rw [cjcStep_preserve env chs d slot t (fun hc => absurd hc hid)]
    exact h

/-- The encode fold never removes a (slot, type) sub-record. -/
theorem cjcChs_mono {α : Type} (env : Env α) :
    ∀ (ds : List c_OutputCommon) (chs : List (Nat × ChannelRecord α)) (slot t : Nat),
    (getTypeRecordChs chs slot t).isSome = true →
    (getTypeRecordChs (createJsonConfigChannels env ds chs) slot t).isSome = true := by
  intro ds
  induction ds with
  | nil => intro chs slot t h; exact h
  | cons d rest ih =>
    intro chs slot t h
    exact ih (createJsonConfigStep env chs d) slot t (cjcStep_mono env chs d slot t h)

/-- The encode fold records every driver's active type. -/
theorem cjcChs_adds {α : Type} (env : Env α) :
    ∀ (ds : List c_OutputCommon) (chs : List (Nat × ChannelRecord α))
      (d : c_OutputCommon), d ∈ ds →
    (getTypeRecordChs (createJsonConfigChannels env ds chs)
      d.OutputChannelId d.OutputTypeVal.toNat).isSome = true := by
  intro ds
  induction ds with
  | nil => intro chs d h; cases h
  | cons d0 rest ih =>
    intro chs d hmem
    rcases List.mem_cons.1 hmem with h | h
    · subst h
      refine cjcChs_mono env rest (createJsonConfigStep env chs d) _ _ ?_
      simp [getTypeRecordChs, createJsonConfigStep, alookup_aset_self]
    · exact ih (createJsonConfigStep env chs d0) d h

/-- A slot's driver belongs to the current-driver list. -/
theorem mem_currentDrivers {α : Type} (s : c_OutputMgr α) (i : Nat)
    (d : c_OutputCommon) (h : slotAt s.pOutputChannelDrivers i = some d) :
    d ∈ currentDrivers s := by
  have hg : s.pOutputChannelDrivers.get? i = some (some d) := by
    rcases hg' : s.pOutputChannelDrivers.get? i with _ | v
    · rw [slotAt, hg'] at h
      cases h
    · rw [slotAt, hg'] at h
      simp at h
      rw [h]
  have hmem : (some d) ∈ s.pOutputChannelDrivers := List.get?_mem hg
  exact List.mem_filterMap.2 ⟨some d, hmem, rfl⟩

/-- `CreateJsonConfig` never removes a (slot, type) sub-record. -/
theorem cjc_mono {α : Type} (env : Env α) (ds : List c_OutputCommon)
    (cfg : OutputConfigSection α) (slot t : Nat)
    (h : (getTypeRecord cfg slot t).isSome = true) :
    (getTypeRecord (CreateJsonConfig env ds cfg) slot t).isSome = true := by
  rw [getTypeRecord_eq_chs] at h ⊢
  have h2 : (CreateJsonConfig env ds cfg).channels.getD [] =
      createJsonConfigChannels env ds (cfg.channels.getD []) := rfl
  rw [h2]
  exact cjcChs_mono env ds (cfg.channels.getD []) slot t h

/-- `CreateJsonConfig` records every driver's active type. -/
theorem cjc_adds {α : Type} (env : Env α) (ds : List c_OutputCommon)
    (cfg : OutputConfigSection α) (d : c_OutputCommon) (h : d ∈ ds) :
    (getTypeRecord (CreateJsonConfig env ds cfg)
      d.OutputChannelId d.OutputTypeVal.toNat).isSome = true := by
  rw [getTypeRecord_eq_chs]
  have h2 : (CreateJsonConfig env ds cfg).channels.getD [] =
      createJsonConfigChannels env ds (cfg.channels.getD []) := rfl
  rw [h2]
  exact cjcChs_adds env ds (cfg.channels.getD []) d h

/-- The channel-instantiation fold: well-formedness is preserved, slots
outside the processed ordinals are untouched, and every processed
in-range slot ends with a driver for the resolved type. -/
theorem instFold_spec {α : Type} (t : e_OutputType) :
    ∀ (idxs : List Nat) (s : c_OutputMgr α) (ev0 : List Event),
    MgrWellFormed s →
    MgrWellFormed ((idxs.foldl (fun acc i =>
      let r := InstantiateNewOutputChannel acc.1 i t
      (r.1, acc.2 ++ r.2)) (s, ev0)).1) ∧
    (∀ i, i ∉ idxs →
      slotAt ((idxs.foldl (fun acc i =>
        let r := InstantiateNewOutputChannel acc.1 i t
        (r.1, acc.2 ++ r.2)) (s, ev0)).1).pOutputChannelDrivers i =
        slotAt s.pOutputChannelDrivers i) ∧
    (∀ i, i < OutputChannelId_End → i ∈ idxs →
      ∃ d, slotAt ((idxs.foldl (fun acc i =>
        let r := InstantiateNewOutputChannel acc.1 i t
        (r.1, acc.2 ++ r.2)) (s, ev0)).1).pOutputChannelDrivers i = some d ∧
        d.OutputChannelId = i ∧ d.OutputTypeVal = resolveOutputType t (uartOf i)) := by
  intro idxs
  induction idxs with
  | nil =>
    intro s ev0 hwf
    exact ⟨hwf, fun _ _ => rfl, fun i _ hmem => absurd hmem (List.not_mem_nil i)⟩
  | cons k rest ih =>
    intro s ev0 hwf
    have hwf1 := inst_wellFormed s k t hwf
    obtain ⟨ihwf, ihpres, ihspec⟩ :=
      ih (InstantiateNewOutputChannel s k t).1 (ev0 ++ (InstantiateNewOutputChannel s k t).2) hwf1
    refine ⟨by simpa [List.foldl_cons] using ihwf, ?_, ?_⟩
    · intro i hi
      have hik : i ≠ k := fun hc => hi (hc ▸ List.mem_cons_self _ _)
      have hirest : i ∉ rest := fun hc => hi (List.mem_cons_of_mem _ hc)
      simp only [List.foldl_cons]
      rw [ihpres i hirest]
      exact instDrivers_slotAt_other k i t s.pOutputChannelDrivers hik
    · intro i hilt hmem
      by_cases hir : i ∈ rest
      · simpa [List.foldl_cons] using ihspec i hilt hir
      · have hik : i = k := by
          rcases List.mem_cons.1 hmem with h | h
          · exact h
          · exact absurd h hir
        subst hik
        have hi' : i < s.pOutputChannelDrivers.length := by
          rw [hwf.1]; exact hilt
        obtain ⟨d, hset, hid, hty⟩ :=
          instDrivers_spec i t s.pOutputChannelDrivers hi' (fun d hd => hwf.2 i d hd)
        refine ⟨d, ?_, hid, hty⟩
        simp only [List.foldl_cons]
        rw [ihpres i hir]
        show slotAt (instantiateNewOutputChannelDrivers i t s.pOutputChannelDrivers).1 i = some d
        rw [hset]
        exact slotAt_set_self _ _ _ hi'

/-- After instantiating a type on every channel, every in-range slot
holds a driver for the resolved type. -/
theorem instAll_spec {α : Type} (s : c_OutputMgr α) (t : e_OutputType)
    (hwf : MgrWellFormed s) :
    MgrWellFormed (instantiateAllChannels s t).1 ∧
    ∀ i, i < OutputChannelId_End →
      ∃ d, slotAt (instantiateAllChannels s t).1.pOutputChannelDrivers i = some d ∧
        d.OutputChannelId = i ∧ d.OutputTypeVal = resolveOutputType t (uartOf i) := by
  obtain ⟨h1, _, h3⟩ := instFold_spec t (List.range OutputChannelId_End) s [] hwf
  exact ⟨h1, fun i hi => h3 i hi (List.mem_range.2 hi)⟩

/-- The per-type fold of `CreateNewConfig` preserves well-formedness,
never removes a sub-record, and adds a sub-record for the resolved type
of every processed type ordinal on every slot. -/
theorem cncFold_spec {α : Type} (env : Env α) :
    ∀ (tIds : List Nat) (s : c_OutputMgr α) (cfg : OutputConfigSection α)
      (ev0 : List Event),
    MgrWellFormed s →
    MgrWellFormed ((tIds.foldl (createNewConfigTypeStep env) (s, cfg, ev0)).1) ∧
    (∀ slot t, (getTypeRecord cfg slot t).isSome = true →
      (getTypeRecord ((tIds.foldl (createNewConfigTypeStep env)
        (s, cfg, ev0)).2.1) slot t).isSome = true) ∧
    (∀ tId, tId ∈ tIds → ∀ i, i < OutputChannelId_End →
      (getTypeRecord ((tIds.foldl (createNewConfigTypeStep env) (s, cfg, ev0)).2.1) i
        (resolveOutputType (e_OutputType.fromNat tId) (uartOf i)).toNat).isSome = true) := by
  intro tIds
  induction tIds with
  | nil =>
    intro s cfg ev0 hwf
    exact ⟨hwf, fun _ _ h => h, fun tId hmem => absurd hmem (List.not_mem_nil tId)⟩
  | cons tId rest ih =>
    intro s cfg ev0 hwf
    obtain ⟨hwf1, hslots⟩ := instAll_spec s (e_OutputType.fromNat tId) hwf
    obtain ⟨ihwf, ihmono, ihadds⟩ :=
      ih (instantiateAllChannels s (e_OutputType.fromNat tId)).1
        (CreateJsonConfig env
          (currentDrivers (instantiateAllChannels s (e_OutputType.fromNat tId)).1) cfg)
        (ev0 ++ (instantiateAllChannels s (e_OutputType.fromNat tId)).2) hwf1
    refine ⟨by simpa [List.foldl_cons, createNewConfigTypeStep] using ihwf, ?_, ?_⟩
    · intro slot t h
      simp only [List.foldl_cons, createNewConfigTypeStep]
      exact ihmono slot t (cjc_mono env _ cfg slot t h)
    · intro tId' hmem i hi
      by_cases hir : tId' ∈ rest
      · simpa [List.foldl_cons, createNewConfigTypeStep] using ihadds tId' hir i hi
      · have htt : tId' = tId := by
          rcases List.mem_cons.1 hmem with h | h
          · exact h
          · exact absurd h hir
        subst htt
        obtain ⟨d, hd, hid, hty⟩ := hslots i hi
        have hdm := mem_currentDrivers _ i d hd
        have hkey := cjc_adds env
          (currentDrivers (instantiateAllChannels s (e_OutputType.fromNat tId')).1)
          cfg d hdm
        rw [hid, hty] at hkey
        simp only [List.foldl_cons, createNewConfigTypeStep]
        exact ihmono i (resolveOutputType (e_OutputType.fromNat tId') (uartOf i)).toNat hkey

/-- `Disabled` resolves to `Disabled` on every descriptor. -/
theorem resolve_disabled (u : Int) :
    resolveOutputType .OutputType_Disabled u = .OutputType_Disabled := rfl

/-- The numeric round trip on valid output types. -/
theorem fromNat_toNat (t : e_OutputType) : e_OutputType.fromNat t.toNat = t := by
  cases t <;> rfl

/-- Every output-type ordinal lies in the supported range. -/
theorem toNat_lt_End (t : e_OutputType) : t.toNat < OutputType_End := by
  cases t <;> decide

/-- When slot 0 already holds a disabled driver, the final
(channel-0-only) disable loop changes nothing. -/
theorem disableLoop_noop {α : Type} :
    ∀ (idxs : List Nat) (x : c_OutputMgr α) (ev0 : List Event),
    (∃ d, slotAt x.pOutputChannelDrivers 0 = some d ∧
      d.OutputTypeVal = .OutputType_Disabled) →
    ((idxs.foldl (fun acc (_ : Nat) =>
      let r := InstantiateNewOutputChannel acc.1 0 e_OutputType.OutputType_Disabled
      (r.1, acc.2 ++ r.2)) (x, ev0)).1) = x := by
  intro idxs
  induction idxs with
  | nil => intro x ev0 _; rfl
  | cons k rest ih =>
    intro x ev0 hx
    obtain ⟨d, hd, hdt⟩ := hx
    have hno := instDrivers_noop 0 .OutputType_Disabled x.pOutputChannelDrivers d hd hdt
    have hstate : (InstantiateNewOutputChannel x 0 .OutputType_Disabled).1 = x := by
      show ({ x with pOutputChannelDrivers :=
        (instantiateNewOutputChannelDrivers 0 .OutputType_Disabled
          x.pOutputChannelDrivers).1 } : c_OutputMgr α) = x
      rw [hno]
    simp only [List.foldl_cons]
    rw [hstate]
    exact ih x _ ⟨d, hd, hdt⟩

/-- The driver array produced by `CreateNewConfig` is that of the final
disable loop. -/
theorem cnc_drivers_eq {α : Type} (env : Env α) (s : c_OutputMgr α) :
    (CreateNewConfig env s).1.pOutputChannelDrivers =
      ((disableChannelZeroLoop (((List.range OutputType_End).foldl
        (createNewConfigTypeStep env) (s, (⟨none⟩ : OutputConfigSection α),
          [])).1)).1).pOutputChannelDrivers := by
  simp only [CreateNewConfig, SaveConfig]

/-- The document stored by `CreateNewConfig` is the final collection
pass over the per-type fold's document. -/
theorem cnc_config_eq {α : Type} (env : Env α) (s : c_OutputMgr α) :
    (CreateNewConfig env s).1.ConfigData =
      ⟨some (CreateJsonConfig env
        (currentDrivers ((disableChannelZeroLoop (((List.range OutputType_End).foldl
          (createNewConfigTypeStep env) (s, (⟨none⟩ : OutputConfigSection α),
            [])).1)).1))
        (((List.range OutputType_End).foldl (createNewConfigTypeStep env)
          (s, (⟨none⟩ : OutputConfigSection α), [])).2.1))⟩ := by
  simp only [CreateNewConfig, SaveConfig]

/-- Reading a sub-record presence through a document root. -/
theorem hasTypeRecordRoot_some {α : Type} (cfg : OutputConfigSection α)
    (slot t : Nat) :
    hasTypeRecordRoot ⟨some cfg⟩ slot t = (getTypeRecord cfg slot t).isSome := rfl

/-- Claim C5 (amended): `CreateNewConfig` produces a document containing
a settings sub-record, for every slot, for every type feasible on that
slot's descriptor (each infeasible (slot, type) pair contributes a
`Disabled` record instead of one for the requested type), and when it
finishes every slot's driver reports `Disabled`. -/
theorem claim_C5_thm {α : Type} (env : Env α) (s : c_OutputMgr α)
    (hwf : MgrWellFormed s) :
    (∀ i, i < OutputChannelId_End → ∀ t : e_OutputType,
      typeFeasible t (uartOf i) = true →
      hasTypeRecordRoot (CreateNewConfig env s).1.ConfigData i t.toNat = true) ∧
    (∀ i, i < OutputChannelId_End →
      hasTypeRecordRoot (CreateNewConfig env s).1.ConfigData i
        e_OutputType.OutputType_Disabled.toNat = true) ∧
    (∀ i, i < OutputChannelId_End →
      ∃ d, slotAt (CreateNewConfig env s).1.pOutputChannelDrivers i = some d ∧
        d.OutputTypeVal = .OutputType_Disabled) := by
  obtain ⟨hwf7, hmono7, hadds7⟩ :=
    cncFold_spec env (List.range OutputType_End) s ⟨none⟩ [] hwf
  -- the last type pass (ordinal 6 = Disabled) fixes the final slots
  have hsplit : List.range OutputType_End = List.range 6 ++ [6] := by decide
  have hr1 : ((List.range OutputType_End).foldl (createNewConfigTypeStep env)
      (s, ⟨none⟩, [])).1 =
      (instantiateAllChannels (((List.range 6).foldl (createNewConfigTypeStep env)
        (s, (⟨none⟩ : OutputConfigSection α), [])).1) (e_OutputType.fromNat 6)).1 := by
    rw [hsplit, List.foldl_append]
    simp only [List.foldl_cons, List.foldl_nil, createNewConfigTypeStep]
  obtain ⟨hwf6, _, _⟩ :=
    cncFold_spec env (List.range 6) s (⟨none⟩ : OutputConfigSection α) [] hwf
  obtain ⟨hwf7', hslots7⟩ :=
    instAll_spec (((List.range 6).foldl (createNewConfigTypeStep env)
      (s, (⟨none⟩ : OutputConfigSection α), [])).1) (e_OutputType.fromNat 6) hwf6
  have hslots : ∀ i, i < OutputChannelId_End →
      ∃ d, slotAt (((List.range OutputType_End).foldl (createNewConfigTypeStep env)
        (s, (⟨none⟩ : OutputConfigSection α), [])).1).pOutputChannelDrivers i = some d ∧
        d.OutputChannelId = i ∧ d.OutputTypeVal = .OutputType_Disabled := by
    intro i hi
    obtain ⟨d, hd, hid, hty⟩ := hslots7 i hi
    rw [show e_OutputType.fromNat 6 = .OutputType_Disabled from rfl,
        resolve_disabled] at hty
    exact ⟨d, by rw [hr1]; exact hd, hid, hty⟩
  -- the buggy disable loop is a no-op from this all-disabled state
  have hloop : (disableChannelZeroLoop (((List.range OutputType_End).foldl
      (createNewConfigTypeStep env) (s, (⟨none⟩ : OutputConfigSection α), [])).1)).1 =
      ((List.range OutputType_End).foldl (createNewConfigTypeStep env)
        (s, (⟨none⟩ : OutputConfigSection α), [])).1 := by
    obtain ⟨d, hd, _, hty⟩ := hslots 0 (by decide)
    exact disableLoop_noop (List.range OutputChannelId_End) _ [] ⟨d, hd, hty⟩
  have hdrv := cnc_drivers_eq env s
  have hcfg := cnc_config_eq env s
  have hkeymain : ∀ i, i < OutputChannelId_End → ∀ t : e_OutputType,
      typeFeasible t (uartOf i) = true →
      hasTypeRecordRoot (CreateNewConfig env s).1.ConfigData i t.toNat = true := by
    intro i hi t hfeas
    have hkey7 := hadds7 t.toNat (List.mem_range.2 (toNat_lt_End t)) i hi
    rw [fromNat_toNat, resolve_of_feasible t (uartOf i) hfeas] at hkey7
    have hkey := cjc_mono env
      (currentDrivers ((disableChannelZeroLoop (((List.range OutputType_End).foldl
        (createNewConfigTypeStep env) (s, (⟨none⟩ : OutputConfigSection α),
          [])).1)).1)) _ i t.toNat hkey7
    rw [hcfg, hasTypeRecordRoot_some]
    exact hkey
  refine ⟨hkeymain, ?_, ?_⟩
  · intro i hi
    exact hkeymain i hi .OutputType_Disabled rfl
  · intro i hi
    obtain ⟨d, hd, _, hty⟩ := hslots i hi
    refine ⟨d, ?_, hty⟩
    rw [hdrv, hloop]
    exact hd

/-- Witness for claim C5 (amended): from the canonical state, the
generated document holds a WS2811 record for UART slot 0, a Relay record
for UART-less slot 2 and Disabled records everywhere, and slot 1 ends
disabled. -/
theorem claim_C5_witness :
    hasTypeRecordRoot (CreateNewConfig env0 mgr0).1.ConfigData 0
      e_OutputType.OutputType_WS2811.toNat = true ∧
    hasTypeRecordRoot (CreateNewConfig env0 mgr0).1.ConfigData 2
      e_OutputType.OutputType_Relay.toNat = true ∧
    hasTypeRecordRoot (CreateNewConfig env0 mgr0).1.ConfigData 1
      e_OutputType.OutputType_Disabled.toNat = true ∧
    (∃ d, slotAt (CreateNewConfig env0 mgr0).1.pOutputChannelDrivers 1 = some d ∧
      d.OutputTypeVal = .OutputType_Disabled) := by
  obtain ⟨h1, h2, h3⟩ := claim_C5_thm env0 mgr0 mgr0_wellFormed
  exact ⟨h1 0 (by decide) .OutputType_WS2811 (by decide),
         h1 2 (by decide) .OutputType_Relay (by decide),
         h2 1 (by decide),
         h3 1 (by decide)⟩

/-- Counterexample to claim C5 as stated: the generated document has no
WS2811 (ordinal 0) sub-record for slot 2 (whose descriptor has no UART)
and no Relay (ordinal 5) sub-record for slot 0 (whose descriptor has a
UART) — not every (slot, supported type) pair is present. -/
theorem claim_C5_counterexample :
    hasTypeRecordRoot (CreateNewConfig env0 mgr0).1.ConfigData 2
      e_OutputType.OutputType_WS2811.toNat = false ∧
    hasTypeRecordRoot (CreateNewConfig env0 mgr0).1.ConfigData 0
      e_OutputType.OutputType_Relay.toNat = false := by
  decide
